import Mathlib

set_option linter.unusedVariables false
set_option linter.unnecessarySeqFocus false

/-
Shallow embedding of the gltf-import-export codec
(src/exportProvider.ts and src/importProvider.ts).

Modelling conventions:
- Byte sequences (Node Buffer values) are `List Nat`.
- JSON objects are Lean structures with `Option` fields for fields that may
  be absent; `none` models both a missing field and a JS `undefined`/`null`.
- Filesystem access and URL resolution (Node `fs`, `url`, `path`, explicitly
  out-of-scope collaborators in the spec) are an oracle `Env`:
  `resolve basePath uri` models `decodeURI(Url.resolve(basePath, uri))`,
  `readFile p` models `fs.readFileSync(p)` (`none` means the read throws),
  `basename` models `path.basename`.
- Fallible code returns `Except JsError`, one constructor per `throw new Error`
  site of the source (plus `typeError`/`fileNotFound` for the implicit JS and
  Node failure modes that the modelled code can hit).
-/

/-- Errors of the translated code. Each constructor corresponds to a throw
site in the source (the message strings are kept in comments). -/
inductive JsError
  /-- importProvider.ts: Source file does not appear to be a GLB. -/
  | malformedContainer
  /-- importProvider.ts: Only GLB version 2 is supported for import. -/
  | unsupportedVersion (v : Nat)
  /-- importProvider.ts: Content of bufferId ... not found. -/
  | contentNotFound
  /-- importProvider.ts: Problem mapping bufferView indices. -/
  | indexMapping
  /-- Node fs.readFileSync throwing because the file does not exist. -/
  | fileNotFound
  /-- Implicit JS TypeError (property access on undefined). -/
  | typeError
deriving Repr, DecidableEq

/-- Oracle for the filesystem / path collaborators (spec section 6). -/
structure Env where
  resolve : String → String → String
  readFile : String → Option (List Nat)
  basename : String → String

/-- exportProvider.ts line 6: the gltfMimeTypes table, in source order
(JS object keys iterate in insertion order). -/
def gltfMimeTypes : List (String × List String) :=
  [ ("image/png", ["png"]),
    ("image/jpeg", ["jpg", "jpeg"]),
    ("image/vnd-ms.dds", ["dds"]),
    ("text/plain", ["glsl", "vert", "vs", "frag", "fs", "txt"]),
    ("audio/wav", ["wav"]) ]

/-- exportProvider.ts line 24: guessFileExtension. Returns a STRING
(this matters: the call sites in importProvider.ts expect an object). -/
def guessFileExtension (mimeType : String) : String :=
  match gltfMimeTypes.find? (fun mt => mt.1 == mimeType) with
  | some mt => "." ++ mt.2.headD ""
  | none => ".bin"

/-- importProvider.ts passes `firstReference.mimeType`, which may be absent
(undefined). `hasOwnProperty(undefined)` is false, so the lookup falls through
to the default branch, exactly as for an unknown string. -/
def guessFileExtensionJs (mimeType : Option String) : String :=
  match mimeType with
  | some m => guessFileExtension m
  | none => ".bin"

/-- importProvider.ts accesses `.extension` on the value returned by
guessFileExtension. In this revision guessFileExtension returns a primitive
string, and a string has no `extension` property, so the access yields
undefined (modelled as `none`), for every argument. -/
def guessExtensionProp (guess : String) : Option String := none

/-- importProvider.ts accesses `.found` on the same string: also undefined. -/
def guessFoundProp (guess : String) : Option Bool := none

/-- JS string concatenation with a possibly-undefined operand:
`s + undefined` evaluates to `s ++ "undefined"`. -/
def jsConcat (s : String) : Option String → String
  | some t => s ++ t
  | none => s ++ "undefined"

/-- exportProvider.ts line 36: guessMimeType. First table entry (in insertion
order) one of whose extensions is a case-insensitive suffix of the filename. -/
def guessMimeType (filename : String) : String :=
  match gltfMimeTypes.findSome? (fun mt =>
      if mt.2.any (fun ext => filename.toLower.endsWith ("." ++ ext))
      then some mt.1 else none) with
  | some m => m
  | none => "application/octet-stream"

/-- exportProvider.ts line 48: isBase64 (uri.substr(0,5) === "data:"). -/
def isBase64 (uri : String) : Bool :=
  if uri.length < 5 then false else uri.take 5 == "data:"

/-- Value of one base64 alphabet character; `none` for characters outside the
alphabet (Node skips them; `=` only terminates well-formed input). -/
def base64DigitVal (c : Char) : Option Nat :=
  if 'A' ≤ c ∧ c ≤ 'Z' then some (c.toNat - 65)
  else if 'a' ≤ c ∧ c ≤ 'z' then some (c.toNat - 97 + 26)
  else if '0' ≤ c ∧ c ≤ '9' then some (c.toNat - 48 + 52)
  else if c = '+' then some 62
  else if c = '/' then some 63
  else none

/-- Six bits of a base64 digit, most significant first. -/
def base64Bits (d : Nat) : List Nat :=
  [d / 32 % 2, d / 16 % 2, d / 8 % 2, d / 4 % 2, d / 2 % 2, d % 2]

/-- Regroup a bit list into bytes, dropping a trailing partial byte
(base64 padding bits). -/
def bytesOfBits : List Nat → List Nat
  | b0 :: b1 :: b2 :: b3 :: b4 :: b5 :: b6 :: b7 :: rest =>
      (b0 * 128 + b1 * 64 + b2 * 32 + b3 * 16 + b4 * 8 + b5 * 4 + b6 * 2 + b7)
        :: bytesOfBits rest
  | _ => []

/-- Models `Buffer.from(s, "base64")` on well-formed base64 text. -/
def base64Decode (s : String) : List Nat :=
  bytesOfBits ((s.toList.filterMap base64DigitVal).flatMap base64Bits)

/-- JS `String.prototype.split(sep)` for a single separator character, on
the character list. -/
def splitOnChar (c : Char) : List Char → List (List Char)
  | [] => [[]]
  | x :: rest =>
    let r := splitOnChar c rest
    if x = c then [] :: r
    else (x :: r.headD []) :: r.tail

/-- exportProvider.ts line 52: decodeBase64
(`Buffer.from(uri.split(",")[1], "base64")`). -/
def decodeBase64 (uri : String) : List Nat :=
  base64Decode (String.mk ((splitOnChar ',' uri.toList).getD 1 []))

/-- JS `String.prototype.indexOf` for a single character: index of first
occurrence or -1. -/
def jsIndexOf (s : String) (c : Char) : Int :=
  match s.toList.findIdx? (· == c) with
  | some i => (i : Int)
  | none => -1

/-- JS `String.prototype.substring(a, b)` on ASCII text. -/
def jsSubstring (s : String) (a b : Nat) : String :=
  String.mk ((s.toList.drop a).take (b - a))

/-- Result record of dataFromUri (interface IUriData). -/
structure IUriData where
  mimeType : String
  buffer : List Nat
deriving Repr, DecidableEq

/-- exportProvider.ts line 56: dataFromUri. The source receives the whole
descriptor object but reads only its `uri` field, so the embedding takes the
`uri` field directly. `.ok none` models the JS `null` return; `.error`
models `fs.readFileSync` throwing. -/
def dataFromUri (env : Env) (uri : Option String) (basePath : String) :
    Except JsError (Option IUriData) :=
  match uri with
  | none => .ok none
  | some u =>
    if isBase64 u then
      let mimeTypePos := jsIndexOf u ';'
      if mimeTypePos > 0 then
        .ok (some ⟨jsSubstring u 5 mimeTypePos.toNat, decodeBase64 u⟩)
      else
        .ok none
    else
      let fullUri := env.resolve basePath u
      match env.readFile fullUri with
      | some bytes => .ok (some ⟨guessMimeType fullUri, bytes⟩)
      | none => .error .fileNotFound

/-- exportProvider.ts line 97: alignedLength (the local `multiple` of the
source, value % 4, is inlined). -/
def alignedLength (value : Nat) : Nat :=
  if value = 0 then value
  else if value % 4 = 0 then value
  else value + (4 - value % 4)

theorem alignedLength_mod_four (n : Nat) : alignedLength n % 4 = 0 := by
  simp only [alignedLength]
  split
  · omega
  · split
    · omega
    · omega

theorem alignedLength_of_mod_eq_zero {n : Nat} (h : n % 4 = 0) :
    alignedLength n = n := by
  simp only [alignedLength]
  split
  · rfl
  · simp [h]

/-
The metadata document (the relevant slice of the glTF JSON tree): structures
with `Option` fields for fields the source tests for presence.
-/

/-- A buffers[] entry: optional uri and a byteLength. -/
structure BufferDesc where
  uri : Option String
  byteLength : Nat
deriving Repr, DecidableEq

/-- A bufferViews[] entry on the decomposition (GLB input) side.
byteOffset may be absent (the source defaults it to 0). -/
structure BufferView where
  buffer : Nat
  byteOffset : Option Nat
  byteLength : Nat
deriving Repr, DecidableEq

/-- An images[] entry (only the fields the codec touches). -/
structure ImageEntry where
  bufferView : Option Nat
  mimeType : Option String
  uri : Option String
deriving Repr, DecidableEq

/-- A shaders[] entry (legacy). -/
structure ShaderEntry where
  bufferView : Option Nat
  type : Option Nat
  mimeType : Option String
  uri : Option String
deriving Repr, DecidableEq

/-- An entry of an array-valued property under extensions.<name>. -/
structure ExtEntry where
  bufferView : Option Nat
  mimeType : Option String
  uri : Option String
deriving Repr, DecidableEq

/-- One property of one extension object; `entries = none` models a property
whose value is not an Array (the source skips those). -/
structure ExtProp where
  name : String
  entries : Option (List ExtEntry)
deriving Repr, DecidableEq

/-- One named extension object with its properties, in key order. -/
structure ExtensionObj where
  name : String
  props : List ExtProp
deriving Repr, DecidableEq

/-- accessors[].sparse.indices / accessors[].sparse.values. -/
structure SparseRef where
  bufferView : Option Nat
deriving Repr, DecidableEq

/-- accessors[].sparse. -/
structure Sparse where
  indices : Option SparseRef
  values : Option SparseRef
deriving Repr, DecidableEq

/-- An accessors[] entry. -/
structure Accessor where
  bufferView : Option Nat
  sparse : Option Sparse
deriving Repr, DecidableEq

/-- meshes[].primitives[].extensions.KHR_draco_mesh_compression. -/
structure DracoExt where
  bufferView : Option Nat
deriving Repr, DecidableEq

/-- meshes[].primitives[].extensions (only the draco key is read). -/
structure PrimExt where
  KHR_draco_mesh_compression : Option DracoExt
deriving Repr, DecidableEq

/-- A mesh primitive. -/
structure Primitive where
  extensions : Option PrimExt
deriving Repr, DecidableEq

/-- A meshes[] entry. -/
structure Mesh where
  primitives : List Primitive
deriving Repr, DecidableEq

/-- The parsed glTF document (decomposition side). Top-level arrays the source
tests with a truthiness check are `Option`; bufferViews and buffers are plain
lists since every input relevant to the claims carries them. -/
structure Gltf where
  buffers : List BufferDesc
  bufferViews : List BufferView
  images : Option (List ImageEntry)
  shaders : Option (List ShaderEntry)
  extensions : Option (List ExtensionObj)
  accessors : Option (List Accessor)
  meshes : Option (List Mesh)
deriving Repr, DecidableEq

/-- exportProvider.ts line 83: getBuffer. Three parameters; returns the bytes
of `glTF.buffers[bufferIndex]` resolved through dataFromUri, or null (`none`)
when dataFromUri returns null. An out-of-range index makes dataFromUri read
`.uri` of undefined, a TypeError. -/
def getBuffer (env : Env) (glTF : Gltf) (bufferIndex : Nat) (basePath : String) :
    Except JsError (Option (List Nat)) :=
  match glTF.buffers.get? bufferIndex with
  | none => .error .typeError
  | some gltfBuffer =>
    match dataFromUri env gltfBuffer.uri basePath with
    | .error e => .error e
    | .ok (some data) => .ok (some data.buffer)
    | .ok none => .ok none

/-- The getBuffer call sites in importProvider.ts pass a fourth argument,
the parsed binary chunk. The getBuffer of exportProvider.ts declares only
three parameters, so by JS calling convention the extra argument is ignored:
the call evaluates to the three-argument getBuffer. -/
def getBufferCallSite (env : Env) (glTF : Gltf) (bufferIndex : Nat)
    (basePath : String) (binBuffer : List Nat) :
    Except JsError (Option (List Nat)) :=
  getBuffer env glTF bufferIndex basePath

/-- Node `buf.slice(offset, offset + length)`: clamps to the buffer bounds. -/
def jsSlice (buf : List Nat) (offset len : Nat) : List Nat :=
  (buf.drop offset).take len

/-- Node `Buffer.alloc(size, fill)` with a Buffer fill: the fill bytes are
repeated cyclically; an empty fill zero-fills. -/
def bufferAllocFill (size : Nat) (fill : List Nat) : List Nat :=
  (List.range size).map (fun j => (fill.get? (j % fill.length)).getD 0)

/-
importProvider.ts doConversion, lines 63-305. The JSON document mutation is
modelled by state passing. File writes are collected in `files`.
-/

/-- The mutable state of doConversion: the document plus the two lists built
by addToBinaryBuf, plus the sidecar files written so far (name, bytes). -/
structure DecompState where
  gltf : Gltf
  bufferViewList : List Nat
  bufferDataList : List (List Nat)
  files : List (String × List Nat)
deriving Repr, DecidableEq

/-- importProvider.ts line 79: findImagesForBufferView. -/
def findImagesForBufferView (gltf : Gltf) (bufferViewIndex : Nat) : List ImageEntry :=
  match gltf.images with
  | some images => images.filter (fun i => i.bufferView == some bufferViewIndex)
  | none => []

/-- importProvider.ts line 113: findShadersForBufferView. -/
def findShadersForBufferView (gltf : Gltf) (bufferViewIndex : Nat) : List ShaderEntry :=
  match gltf.shaders with
  | some shaders => shaders.filter (fun s => s.bufferView == some bufferViewIndex)
  | none => []

/-- importProvider.ts line 175: findExtensionBuffers. Walks every array-valued
property of every extension, collecting entries whose bufferView matches,
tagged with extensionName_extensionPropertyName. -/
def findExtensionBuffers (gltf : Gltf) (bufferViewIndex : Nat) :
    List (ExtEntry × String) :=
  match gltf.extensions with
  | none => []
  | some exts =>
    exts.flatMap (fun ext =>
      ext.props.flatMap (fun prop =>
        match prop.entries with
        | none => []
        | some entries =>
          (entries.filter (fun b => b.bufferView == some bufferViewIndex)).map
            (fun b => (b, ext.name ++ "_" ++ prop.name))))

/-- importProvider.ts line 87: writeImageBuf. The `firstReference` is the head
of the non-empty filtered group; `gltf.images.indexOf(firstReference)` is its
position in the images array, modelled with findIdx? (the first structurally
equal element satisfies the same filter, so the positions agree). The forEach
over the group is modelled as a map over the images array guarded by the same
bufferView test that produced the group. -/
def writeImageBuf (env : Env) (pathBase targetBasename : String)
    (binBuffer : List Nat) (st : DecompState) (images : List ImageEntry)
    (bufferViewIndex : Nat) : Except JsError DecompState :=
  match st.gltf.bufferViews.get? bufferViewIndex with
  | none => .error .typeError
  | some view =>
    let offset := view.byteOffset.getD 0
    let length := view.byteLength
    match images with
    | [] => .error .typeError
    | firstReference :: _ =>
      let guess := guessFileExtensionJs firstReference.mimeType
      let extension := guessExtensionProp guess
      let imageIndex :=
        ((st.gltf.images.getD []).findIdx? (fun im => im == firstReference)).getD 0
      let filename :=
        jsConcat (targetBasename ++ "_img" ++ toString imageIndex) extension
      match getBufferCallSite env st.gltf view.buffer pathBase binBuffer with
      | .error e => .error e
      | .ok none => .error .contentNotFound
      | .ok (some buf) =>
        let found := (guessFoundProp guess).getD false
        let newImages := (st.gltf.images.getD []).map (fun im =>
          if im.bufferView == some bufferViewIndex then
            { bufferView := none,
              mimeType := if found then none else im.mimeType,
              uri := some (env.basename filename) }
          else im)
        .ok { st with
              gltf := { st.gltf with images := some newImages },
              files := st.files ++ [(filename, jsSlice buf offset length)] }

/-- importProvider.ts line 121: writeShaderBuf. The extension is picked from
the type field of the first shader of the group (0x8B31 vertex, 0x8B30
fragment, default .glsl); shader mimeType is deleted unconditionally. -/
def writeShaderBuf (env : Env) (pathBase targetBasename : String)
    (binBuffer : List Nat) (st : DecompState) (shaders : List ShaderEntry)
    (bufferViewIndex : Nat) : Except JsError DecompState :=
  match st.gltf.bufferViews.get? bufferViewIndex with
  | none => .error .typeError
  | some view =>
    let offset := view.byteOffset.getD 0
    let length := view.byteLength
    match shaders with
    | [] => .error .typeError
    | firstReference :: _ =>
      let extension :=
        if firstReference.type == some 0x8B31 then ".vert"
        else if firstReference.type == some 0x8B30 then ".frag"
        else ".glsl"
      let shaderIndex :=
        ((st.gltf.shaders.getD []).findIdx? (fun s => s == firstReference)).getD 0
      let filename := targetBasename ++ "_shader" ++ toString shaderIndex ++ extension
      match getBufferCallSite env st.gltf view.buffer pathBase binBuffer with
      | .error e => .error e
      | .ok none => .error .contentNotFound
      | .ok (some buf) =>
        let newShaders := (st.gltf.shaders.getD []).map (fun s =>
          if s.bufferView == some bufferViewIndex then
            { bufferView := none,
              type := s.type,
              mimeType := none,
              uri := some (env.basename filename) }
          else s)
        .ok { st with
              gltf := { st.gltf with shaders := some newShaders },
              files := st.files ++ [(filename, jsSlice buf offset length)] }

/-- importProvider.ts line 151: writeExtensionBuffer. The group elements carry
the extensionName_propertyName tag; the filename uses the tag of the first
group element and the bufferView index. The extension guessing has the same
property-access-on-string behaviour as writeImageBuf. -/
def writeExtensionBuffer (env : Env) (pathBase targetBasename : String)
    (binBuffer : List Nat) (st : DecompState)
    (buffers : List (ExtEntry × String)) (bufferViewIndex : Nat) :
    Except JsError DecompState :=
  match st.gltf.bufferViews.get? bufferViewIndex with
  | none => .error .typeError
  | some view =>
    let offset := view.byteOffset.getD 0
    let length := view.byteLength
    match buffers with
    | [] => .error .typeError
    | firstReference :: _ =>
      let guess := guessFileExtensionJs firstReference.1.mimeType
      let extension := guessExtensionProp guess
      let filename :=
        jsConcat (targetBasename ++ "_" ++ firstReference.2 ++ "_"
          ++ toString bufferViewIndex) extension
      match getBufferCallSite env st.gltf view.buffer pathBase binBuffer with
      | .error e => .error e
      | .ok none => .error .contentNotFound
      | .ok (some buf) =>
        let found := (guessFoundProp guess).getD false
        let newExts := (st.gltf.extensions.getD []).map (fun ext =>
          { ext with props := ext.props.map (fun prop =>
              { prop with entries := prop.entries.map (fun entries =>
                  entries.map (fun b =>
                    if b.bufferView == some bufferViewIndex then
                      { bufferView := none,
                        mimeType := if found then none else b.mimeType,
                        uri := some (env.basename filename) }
                    else b)) }) })
        .ok { st with
              gltf := { st.gltf with extensions := some newExts },
              files := st.files ++ [(filename, jsSlice buf offset length)] }

/-- importProvider.ts line 199: addToBinaryBuf. Slices the resolved buffer
and pads to 4-byte alignment with Buffer.alloc cyclic fill when the declared
view length is not aligned. -/
def addToBinaryBuf (env : Env) (pathBase : String) (binBuffer : List Nat)
    (st : DecompState) (bufferViewIndex : Nat) : Except JsError DecompState :=
  match st.gltf.bufferViews.get? bufferViewIndex with
  | none => .error .typeError
  | some view =>
    let offset := view.byteOffset.getD 0
    let length := view.byteLength
    let aLength := alignedLength length
    match getBufferCallSite env st.gltf view.buffer pathBase binBuffer with
    | .error e => .error e
    | .ok none => .error .contentNotFound
    | .ok (some buf) =>
      let bufPart :=
        if length = aLength then jsSlice buf offset length
        else bufferAllocFill aLength (jsSlice buf offset length)
      .ok { st with
            bufferViewList := st.bufferViewList ++ [bufferViewIndex],
            bufferDataList := st.bufferDataList ++ [bufPart] }

/-- importProvider.ts lines 220-242: the classification of one bufferView
index (image group, shader group, extension group, generic). -/
def classifyStep (env : Env) (pathBase targetBasename : String)
    (binBuffer : List Nat) (st : DecompState) (bufferViewIndex : Nat) :
    Except JsError DecompState :=
  let images := findImagesForBufferView st.gltf bufferViewIndex
  if images.length > 0 then
    writeImageBuf env pathBase targetBasename binBuffer st images bufferViewIndex
  else
    let shaders := findShadersForBufferView st.gltf bufferViewIndex
    if shaders.length > 0 then
      writeShaderBuf env pathBase targetBasename binBuffer st shaders bufferViewIndex
    else
      let buffers := findExtensionBuffers st.gltf bufferViewIndex
      if buffers.length > 0 then
        writeExtensionBuffer env pathBase targetBasename binBuffer st buffers bufferViewIndex
      else
        addToBinaryBuf env pathBase binBuffer st bufferViewIndex

/-- The classification loop over a list of bufferView indices. -/
def classifyLoop (env : Env) (pathBase targetBasename : String)
    (binBuffer : List Nat) : List Nat → DecompState → Except JsError DecompState
  | [], st => .ok st
  | i :: rest, st =>
    match classifyStep env pathBase targetBasename binBuffer st i with
    | .error e => .error e
    | .ok st2 => classifyLoop env pathBase targetBasename binBuffer rest st2

/-- importProvider.ts lines 220-242: the whole classification pass, over
bufferView indices 0 .. length-1 (the bufferViews array itself is not changed
by the loop, so the initial length bounds it). -/
def classifyAll (env : Env) (pathBase targetBasename : String)
    (binBuffer : List Nat) (gltf : Gltf) : Except JsError DecompState :=
  classifyLoop env pathBase targetBasename binBuffer
    (List.range gltf.bufferViews.length) ⟨gltf, [], [], []⟩

/-- importProvider.ts lines 245-255: rebuild the generic bufferViews with a
running byteOffset; note the byteLength written is the length of the
collected (already padded) data part. -/
def buildNewBufferViews (oldViews : List BufferView) :
    List Nat → List (List Nat) → Nat → List BufferView
  | vi :: vis, d :: ds, currentOffset =>
    let view := oldViews.getD vi ⟨0, none, 0⟩
    { view with buffer := 0, byteOffset := some currentOffset, byteLength := d.length }
      :: buildNewBufferViews oldViews vis ds (currentOffset + d.length)
  | _, _, _ => []

/-- importProvider.ts line 256: gltf.bufferViews = newBufferView. -/
def rewriteGenericViews (gltf : Gltf) (bufferViewList : List Nat)
    (bufferDataList : List (List Nat)) : Gltf :=
  { gltf with bufferViews := buildNewBufferViews gltf.bufferViews bufferViewList bufferDataList 0 }

/-- JS `Array.prototype.indexOf` on a number array: the position of the first
occurrence, none standing for -1. -/
def jsArrayIndexOf (l : List Nat) (o : Nat) : Option Nat :=
  match l with
  | [] => none
  | x :: rest => if x = o then some 0 else (jsArrayIndexOf rest o).map (· + 1)

/-- importProvider.ts line 258: getNewBufferViewIndex:
bufferViewList.indexOf(oldIndex), throwing when the result is negative. -/
def getNewBufferViewIndex (bufferViewList : List Nat) (oldIndex : Nat) :
    Except JsError Nat :=
  match jsArrayIndexOf bufferViewList oldIndex with
  | some newIndex => .ok newIndex
  | none => .error .indexMapping

/-- The draco call site passes primitive....bufferView without an undefined
guard; indexOf(undefined) on a number array is -1, so an absent field also
throws the mapping error. -/
def getNewBufferViewIndexJs (bufferViewList : List Nat) :
    Option Nat → Except JsError Nat
  | some old => getNewBufferViewIndex bufferViewList old
  | none => .error .indexMapping

/-- Renumbering of one sparse reference site (lines 274-279): only when the
site object exists and its bufferView is not undefined. -/
def renumberSparseRef (l : List Nat) :
    Option SparseRef → Except JsError (Option SparseRef)
  | none => .ok none
  | some sr =>
    match sr.bufferView with
    | none => .ok (some sr)
    | some old =>
      match getNewBufferViewIndex l old with
      | .error e => .error e
      | .ok n => .ok (some { sr with bufferView := some n })

/-- importProvider.ts lines 269-281: renumber one accessor (direct reference,
then sparse indices, then sparse values). -/
def renumberAccessor (l : List Nat) (accessor : Accessor) : Except JsError Accessor :=
  let direct : Except JsError (Option Nat) :=
    match accessor.bufferView with
    | none => .ok none
    | some old =>
      match getNewBufferViewIndex l old with
      | .error e => .error e
      | .ok n => .ok (some n)
  match direct with
  | .error e => .error e
  | .ok bv =>
    match accessor.sparse with
    | none => .ok { accessor with bufferView := bv }
    | some s =>
      match renumberSparseRef l s.indices with
      | .error e => .error e
      | .ok ind =>
        match renumberSparseRef l s.values with
        | .error e => .error e
        | .ok vals =>
          .ok { accessor with bufferView := bv, sparse := some ⟨ind, vals⟩ }

/-- The accessors loop of lines 268-282. -/
def renumberAccessors (l : List Nat) : List Accessor → Except JsError (List Accessor)
  | [] => .ok []
  | a :: rest =>
    match renumberAccessor l a with
    | .error e => .error e
    | .ok a2 =>
      match renumberAccessors l rest with
      | .error e => .error e
      | .ok r => .ok (a2 :: r)

/-- importProvider.ts lines 286-290: renumber the draco reference of one
primitive, when present. -/
def renumberPrimitive (l : List Nat) (p : Primitive) : Except JsError Primitive :=
  match p.extensions with
  | none => .ok p
  | some pe =>
    match pe.KHR_draco_mesh_compression with
    | none => .ok p
    | some d =>
      match getNewBufferViewIndexJs l d.bufferView with
      | .error e => .error e
      | .ok n =>
        let d2 : DracoExt := { d with bufferView := some n }
        let pe2 : PrimExt := { pe with KHR_draco_mesh_compression := some d2 }
        .ok { p with extensions := some pe2 }

/-- The primitives loop of one mesh. -/
def renumberPrimitives (l : List Nat) : List Primitive → Except JsError (List Primitive)
  | [] => .ok []
  | p :: rest =>
    match renumberPrimitive l p with
    | .error e => .error e
    | .ok p2 =>
      match renumberPrimitives l rest with
      | .error e => .error e
      | .ok r => .ok (p2 :: r)

/-- The meshes loop of lines 284-292. -/
def renumberMeshes (l : List Nat) : List Mesh → Except JsError (List Mesh)
  | [] => .ok []
  | m :: rest =>
    match renumberPrimitives l m.primitives with
    | .error e => .error e
    | .ok ps =>
      match renumberMeshes l rest with
      | .error e => .error e
      | .ok r => .ok ({ m with primitives := ps } :: r)

/-- importProvider.ts lines 266-292: renumber every bufferView reference site
(accessors first, then meshes). -/
def renumberReferences (l : List Nat) (gltf : Gltf) : Except JsError Gltf :=
  let accStep : Except JsError Gltf :=
    match gltf.accessors with
    | none => .ok gltf
    | some accs =>
      match renumberAccessors l accs with
      | .error e => .error e
      | .ok a2 => .ok { gltf with accessors := some a2 }
  match accStep with
  | .error e => .error e
  | .ok g2 =>
    match g2.meshes with
    | none => .ok g2
    | some ms =>
      match renumberMeshes l ms with
      | .error e => .error e
      | .ok m2 => .ok { g2 with meshes := some m2 }

/-- What doConversion produces when it succeeds: the sidecar files written
during classification, the consolidated data file, and the final document
(whose pretty-printed serialization is written to the target filename). -/
structure ConversionResult where
  files : List (String × List Nat)
  dataFileName : String
  dataBytes : List Nat
  gltf : Gltf
deriving Repr, DecidableEq

/-- importProvider.ts line 63: doConversion, after JSON parsing, over the
parsed document. targetBasename is the target filename with one extension
component stripped (a path collaborator, taken as a parameter). The final
buffers array points at the basename of the <base>_data.bin sidecar with the
concatenated length. -/
def doConversionCore (env : Env) (gltf0 : Gltf) (binBuffer : List Nat)
    (pathBase targetBasename : String) : Except JsError ConversionResult :=
  match classifyAll env pathBase targetBasename binBuffer gltf0 with
  | .error e => .error e
  | .ok st =>
    let g1 := rewriteGenericViews st.gltf st.bufferViewList st.bufferDataList
    match renumberReferences st.bufferViewList g1 with
    | .error e => .error e
    | .ok g2 =>
      let binFilename := targetBasename ++ "_data.bin"
      let finalBytes := st.bufferDataList.flatten
      .ok { files := st.files,
            dataFileName := binFilename,
            dataBytes := finalBytes,
            gltf := { g2 with
              buffers := [⟨some (env.basename binFilename), finalBytes.length⟩] } }

/-- Node Buffer.readUInt32LE, total model over byte lists (valid for in-range
reads; Node throws on out-of-range reads, so theorems carry explicit length
hypotheses where it matters). -/
def readUInt32LE (buf : List Nat) (offset : Nat) : Nat :=
  (buf.get? offset).getD 0
    + 256 * ((buf.get? (offset + 1)).getD 0)
    + 65536 * ((buf.get? (offset + 2)).getD 0)
    + 16777216 * ((buf.get? (offset + 3)).getD 0)

/-- The GLB magic constant 0x46546C67 (glTF packed as ASCII). -/
def GLBMagic : Nat := 0x46546C67

/-- importProvider.ts line 6: readSourceFile, byte-level part: the magic gate
and the version gate, in that order (the file existence checks are
filesystem collaborator concerns outside this embedding). -/
def readSourceFileBytes (sourceBuf : List Nat) : Except JsError (List Nat) :=
  if readUInt32LE sourceBuf 0 ≠ GLBMagic then .error .malformedContainer
  else if readUInt32LE sourceBuf 4 ≠ 2 then
    .error (.unsupportedVersion (readUInt32LE sourceBuf 4))
  else .ok sourceBuf

/-- importProvider.ts lines 72-76 then the rest of doConversion: chunk-0
length read at offset 12, JSON text at bytes 20..20+size, binary chunk from
byte size+28 on. JSON.parse is modelled by the parse oracle. -/
def doConversionFromBytes (env : Env) (parse : List Nat → Except JsError Gltf)
    (sourceBuf : List Nat) (pathBase targetBasename : String) :
    Except JsError ConversionResult :=
  let jsonBufSize := readUInt32LE sourceBuf 12
  let jsonBytes := (sourceBuf.drop 20).take jsonBufSize
  match parse jsonBytes with
  | .error e => .error e
  | .ok gltf =>
    doConversionCore env gltf (sourceBuf.drop (jsonBufSize + 28)) pathBase targetBasename

/-- importProvider.ts line 38: ConvertGLBtoGltf = readSourceFile then
doConversion; a readSourceFile failure happens before doConversion runs, so
before any write. -/
def ConvertGLBtoGltfModel (env : Env) (parse : List Nat → Except JsError Gltf)
    (sourceBuf : List Nat) (pathBase targetBasename : String) :
    Except JsError ConversionResult :=
  match readSourceFileBytes sourceBuf with
  | .error e => .error e
  | .ok buf => doConversionFromBytes env parse buf pathBase targetBasename


/-
exportProvider.ts ConvertToGLB, lines 132-269. The composition side has its
own view type because the merge pass of lines 155-158 can produce a NaN
byteOffset (number + undefined); JsNum models a JS number that is either an
actual (non-negative) integer or NaN.
-/

/-- A JS number value that is either an integer or NaN. -/
inductive JsNum
  | num (n : Nat)
  | nan
deriving Repr, DecidableEq

/-- A bufferViews[] entry on the composition (glTF input) side. -/
structure GlbBufferView where
  buffer : Nat
  byteOffset : Option JsNum
  byteLength : Nat
deriving Repr, DecidableEq

/-- The parsed glTF document on the composition side (the fields ConvertToGLB
reads: buffers, bufferViews, images, shaders, extensions). -/
structure GlbGltf where
  buffers : List BufferDesc
  bufferViews : List GlbBufferView
  images : Option (List ImageEntry)
  shaders : Option (List ShaderEntry)
  extensions : Option (List ExtensionObj)
deriving Repr, DecidableEq

/-- `bufferMap.get(k)` for the Map of line 137, kept as an association list
(keys are inserted at most once, so find? agrees with Map.get). -/
def mapGet (m : List (Nat × Nat)) (k : Nat) : Option Nat :=
  (m.find? (fun p => p.1 == k)).map (fun p => p.2)

/-- Output of the buffers loop of lines 141-154: the rewritten buffers
array, the pushed output buffers, the index-to-offset map, and the final
bufferOffset. -/
structure BuffersPassOut where
  buffers : List BufferDesc
  outputBuffers : List (List Nat)
  bufferMap : List (Nat × Nat)
  bufferOffset : Nat
deriving Repr, DecidableEq

/-- exportProvider.ts lines 141-154: resolve every buffers[] entry; entries
whose dataFromUri is null are skipped unchanged; resolved entries lose their
uri, get the resolved byteLength, and are assigned the running offset, which
then advances by the aligned length. -/
def buffersPass (env : Env) (sourceFilename : String) :
    List BufferDesc → Nat → Nat → Except JsError BuffersPassOut
  | [], _, off => .ok ⟨[], [], [], off⟩
  | b :: rest, idx, off =>
    match dataFromUri env b.uri sourceFilename with
    | .error e => .error e
    | .ok none =>
      match buffersPass env sourceFilename rest (idx + 1) off with
      | .error e => .error e
      | .ok out => .ok ⟨b :: out.buffers, out.outputBuffers, out.bufferMap, out.bufferOffset⟩
    | .ok (some data) =>
      match buffersPass env sourceFilename rest (idx + 1) (off + alignedLength data.buffer.length) with
      | .error e => .error e
      | .ok out =>
        .ok ⟨{ b with uri := none, byteLength := data.buffer.length } :: out.buffers,
             data.buffer :: out.outputBuffers,
             (idx, off) :: out.bufferMap,
             out.bufferOffset⟩

/-- JS `(bufferView.byteOffset || 0)`: undefined and NaN are falsy. -/
def jsOrZero : Option JsNum → Nat
  | none => 0
  | some .nan => 0
  | some (.num n) => n

/-- JS addition of a number and a possibly-undefined number:
`n + undefined` is NaN. -/
def jsAddOpt (a : Nat) : Option Nat → JsNum
  | some b => .num (a + b)
  | none => .nan

/-- exportProvider.ts lines 155-158: every bufferView has its byteOffset
shifted by the recorded offset of its buffer (an UNGUARDED map lookup) and
its buffer field forced to 0. -/
def mergeViews (bufferMap : List (Nat × Nat)) (views : List GlbBufferView) :
    List GlbBufferView :=
  views.map (fun v =>
    { v with
      byteOffset := some (jsAddOpt (jsOrZero v.byteOffset) (mapGet bufferMap v.buffer)),
      buffer := 0 })

/-- The mutable locals of ConvertToGLB threaded through the resource loops. -/
structure GlbState where
  gltf : GlbGltf
  bufferMap : List (Nat × Nat)
  bufferOffset : Nat
  outputBuffers : List (List Nat)
  bufferIndex : Nat
deriving Repr, DecidableEq

/-- exportProvider.ts lines 160-178: convertToBufferView. Appends a new
bufferView at the current bufferOffset, records the offset under the running
bufferIndex, advances the offset by the aligned data length, and returns the
new bufferView index (the caller then rewrites the descriptor entry exactly
as the closure body does). -/
def convertToBufferView (st : GlbState) (data : IUriData) : GlbState × Nat :=
  let bufferViewIndex := st.gltf.bufferViews.length
  let newView : GlbBufferView :=
    { buffer := 0, byteOffset := some (.num st.bufferOffset), byteLength := data.buffer.length }
  ({ st with
      gltf := { st.gltf with bufferViews := st.gltf.bufferViews ++ [newView] },
      bufferMap := st.bufferMap ++ [(st.bufferIndex, st.bufferOffset)],
      bufferIndex := st.bufferIndex + 1,
      bufferOffset := st.bufferOffset + alignedLength data.buffer.length,
      outputBuffers := st.outputBuffers ++ [data.buffer] },
   bufferViewIndex)

/-- exportProvider.ts lines 180-190: the images loop. An unresolvable entry
has its uri deleted and is skipped; a resolvable one is converted to a
bufferView reference. -/
def imagesPass (env : Env) (sourceFilename : String) :
    List ImageEntry → GlbState → Except JsError (List ImageEntry × GlbState)
  | [], st => .ok ([], st)
  | image :: rest, st =>
    match dataFromUri env image.uri sourceFilename with
    | .error e => .error e
    | .ok none =>
      match imagesPass env sourceFilename rest st with
      | .error e => .error e
      | .ok (r, st2) => .ok ({ image with uri := none } :: r, st2)
    | .ok (some data) =>
      let next := convertToBufferView st data
      let image2 : ImageEntry :=
        { image with bufferView := some next.2, mimeType := some data.mimeType, uri := none }
      match imagesPass env sourceFilename rest next.1 with
      | .error e => .error e
      | .ok (r, st3) => .ok (image2 :: r, st3)

/-- exportProvider.ts lines 192-202: the shaders loop, same shape as the
images loop. -/
def shadersPass (env : Env) (sourceFilename : String) :
    List ShaderEntry → GlbState → Except JsError (List ShaderEntry × GlbState)
  | [], st => .ok ([], st)
  | shader :: rest, st =>
    match dataFromUri env shader.uri sourceFilename with
    | .error e => .error e
    | .ok none =>
      match shadersPass env sourceFilename rest st with
      | .error e => .error e
      | .ok (r, st2) => .ok ({ shader with uri := none } :: r, st2)
    | .ok (some data) =>
      let next := convertToBufferView st data
      let shader2 : ShaderEntry :=
        { shader with bufferView := some next.2, mimeType := some data.mimeType, uri := none }
      match shadersPass env sourceFilename rest next.1 with
      | .error e => .error e
      | .ok (r, st3) => .ok (shader2 :: r, st3)

/-- exportProvider.ts lines 210-217: the entries of one array-valued
extension property. NOTE: unlike the images and shaders loops, an
unresolvable entry is skipped WITHOUT deleting its uri. -/
def extEntriesPass (env : Env) (sourceFilename : String) :
    List ExtEntry → GlbState → Except JsError (List ExtEntry × GlbState)
  | [], st => .ok ([], st)
  | b :: rest, st =>
    match dataFromUri env b.uri sourceFilename with
    | .error e => .error e
    | .ok none =>
      match extEntriesPass env sourceFilename rest st with
      | .error e => .error e
      | .ok (r, st2) => .ok (b :: r, st2)
    | .ok (some data) =>
      let next := convertToBufferView st data
      let b2 : ExtEntry :=
        { b with bufferView := some next.2, mimeType := some data.mimeType, uri := none }
      match extEntriesPass env sourceFilename rest next.1 with
      | .error e => .error e
      | .ok (r, st3) => .ok (b2 :: r, st3)

/-- The properties of one extension object (line 207): only Array-valued
properties are processed. -/
def extPropsPass (env : Env) (sourceFilename : String) :
    List ExtProp → GlbState → Except JsError (List ExtProp × GlbState)
  | [], st => .ok ([], st)
  | prop :: rest, st =>
    match prop.entries with
    | none =>
      match extPropsPass env sourceFilename rest st with
      | .error e => .error e
      | .ok (r, st2) => .ok (prop :: r, st2)
    | some entries =>
      match extEntriesPass env sourceFilename entries st with
      | .error e => .error e
      | .ok (es2, st2) =>
        match extPropsPass env sourceFilename rest st2 with
        | .error e => .error e
        | .ok (r, st3) => .ok ({ prop with entries := some es2 } :: r, st3)

/-- The outer extensions loop of lines 204-221. -/
def extObjsPass (env : Env) (sourceFilename : String) :
    List ExtensionObj → GlbState → Except JsError (List ExtensionObj × GlbState)
  | [], st => .ok ([], st)
  | ext :: rest, st =>
    match extPropsPass env sourceFilename ext.props st with
    | .error e => .error e
    | .ok (ps2, st2) =>
      match extObjsPass env sourceFilename rest st2 with
      | .error e => .error e
      | .ok (r, st3) => .ok ({ ext with props := ps2 } :: r, st3)

/-- What ConvertToGLB computes before serializing: the final document, the
offset map, the resolved payload pieces, and the binary chunk size. -/
structure GlbResult where
  gltf : GlbGltf
  bufferMap : List (Nat × Nat)
  outputBuffers : List (List Nat)
  binBufferSize : Nat
deriving Repr, DecidableEq

/-- The images loop guarded by the `if (gltf.images)` truthiness test of line
180 (an absent array skips the loop), writing the processed list back. -/
def imagesStepFn (env : Env) (sourceFilename : String) (st : GlbState) :
    Except JsError GlbState :=
  match st.gltf.images with
  | none => .ok st
  | some l =>
    match imagesPass env sourceFilename l st with
    | .error e => .error e
    | .ok (l2, st2) => .ok { st2 with gltf := { st2.gltf with images := some l2 } }

/-- The shaders loop guarded by the test of line 192. -/
def shadersStepFn (env : Env) (sourceFilename : String) (st : GlbState) :
    Except JsError GlbState :=
  match st.gltf.shaders with
  | none => .ok st
  | some l =>
    match shadersPass env sourceFilename l st with
    | .error e => .error e
    | .ok (l2, st2) => .ok { st2 with gltf := { st2.gltf with shaders := some l2 } }

/-- The extensions walk guarded by the test of line 204. -/
def extStepFn (env : Env) (sourceFilename : String) (st : GlbState) :
    Except JsError GlbState :=
  match st.gltf.extensions with
  | none => .ok st
  | some exts =>
    match extObjsPass env sourceFilename exts st with
    | .error e => .error e
    | .ok (e2, st2) => .ok { st2 with gltf := { st2.gltf with extensions := some e2 } }

/-- exportProvider.ts lines 132-227: ConvertToGLB up to (and including)
replacing gltf.buffers with the single uri-less entry of length
binBufferSize; the byte emission of lines 229-268 is assembleGLB below. -/
def glbInitState (gltf0 : GlbGltf) (bp : BuffersPassOut) : GlbState :=
  { gltf := { gltf0 with
              buffers := bp.buffers,
              bufferViews := mergeViews bp.bufferMap gltf0.bufferViews },
    bufferMap := bp.bufferMap,
    bufferOffset := bp.bufferOffset,
    outputBuffers := bp.outputBuffers,
    bufferIndex := gltf0.buffers.length }

def ConvertToGLBCore (env : Env) (gltf0 : GlbGltf) (sourceFilename : String) :
    Except JsError GlbResult :=
  match buffersPass env sourceFilename gltf0.buffers 0 0 with
  | .error e => .error e
  | .ok bp =>
    match imagesStepFn env sourceFilename (glbInitState gltf0 bp) with
    | .error e => .error e
    | .ok st1 =>
      match shadersStepFn env sourceFilename st1 with
      | .error e => .error e
      | .ok st2 =>
        match extStepFn env sourceFilename st2 with
        | .error e => .error e
        | .ok st3 =>
          let binBufferSize := st3.bufferOffset
          .ok { gltf := { st3.gltf with buffers := [⟨none, binBufferSize⟩] },
                bufferMap := st3.bufferMap,
                outputBuffers := st3.outputBuffers,
                binBufferSize := binBufferSize }

/-- exportProvider.ts lines 229-235: pad the serialized JSON with ASCII
spaces (0x20) up to alignedLength. -/
def padJsonBuffer (json : List Nat) : List Nat :=
  if alignedLength json.length = json.length then json
  else json ++ List.replicate (alignedLength json.length - json.length) 0x20

/-- exportProvider.ts lines 237-242: total container size. -/
def glbTotalSize (jsonLen binBufferSize : Nat) : Nat :=
  12 + 8 + alignedLength jsonLen + 8 + binBufferSize

/-- Little-endian 32-bit emission (DataView.setUint32 with littleEndian). -/
def u32le (n : Nat) : List Nat :=
  [n % 256, n / 256 % 256, n / 65536 % 256, n / 16777216 % 256]

/-- Overlay src into dest at pos (Buffer.copy into a preallocated buffer;
in-range writes, which is what the emission performs). -/
def writeAt (dest : List Nat) (pos : Nat) (src : List Nat) : List Nat :=
  dest.take pos ++ src ++ dest.drop (pos + src.length)

/-- exportProvider.ts lines 260-266: copy each resolved output buffer to its
recorded offset inside the zero-initialized payload region; indices missing
from the map are skipped. -/
def glbPayload (outputBuffers : List (List Nat)) (bufferMap : List (Nat × Nat))
    (size : Nat) : List Nat :=
  (List.range outputBuffers.length).foldl (fun acc i =>
    match mapGet bufferMap i with
    | none => acc
    | some off => writeAt acc off (outputBuffers.getD i []))
    (List.replicate size 0)

/-- The JSON chunk type tag of line 253. -/
def JSONChunkTag : Nat := 0x4E4F534A

/-- The BIN chunk type tag of line 258. -/
def BINChunkTag : Nat := 0x004E4942

/-- exportProvider.ts lines 244-266: the emitted container bytes, given the
serialized JSON bytes (JSON.stringify is a collaborator; the parameter is its
output). The sequential setUint32/copy writes at strictly increasing offsets
are modelled as concatenation. The stored JSON chunk length field is the
length of the (already padded) jsonBuffer of line 252; the stored binary
chunk length field is binBufferSize of line 257. -/
def assembleGLB (jsonBuf : List Nat) (r : GlbResult) : List Nat :=
  let jsonPadded := padJsonBuffer jsonBuf
  u32le GLBMagic ++ u32le 2 ++ u32le (glbTotalSize jsonBuf.length r.binBufferSize)
    ++ u32le jsonPadded.length ++ u32le JSONChunkTag ++ jsonPadded
    ++ u32le r.binBufferSize ++ u32le BINChunkTag
    ++ glbPayload r.outputBuffers r.bufferMap r.binBufferSize

/-
Concrete inputs used by counterexamples and witnesses.
-/

/-- An environment whose filesystem has no files (resolution is identity,
basename is identity: enough for inputs that never hit the filesystem). -/
def envNone : Env := ⟨fun _ u => u, fun _ => none, fun s => s⟩

/-- The parsed JSON chunk of the minimal container of the spec (section 8,
property 7): asset 2.0, one uri-less buffer of byteLength 8, one bufferView
covering it, one accessor referencing bufferView 0. -/
def gltfC2 : Gltf :=
  { buffers := [⟨none, 8⟩],
    bufferViews := [⟨0, some 0, 8⟩],
    images := none,
    shaders := none,
    extensions := none,
    accessors := some [⟨some 0, none⟩],
    meshes := none }

/-- The 8 binary-chunk bytes of the minimal container. -/
def binC2 : List Nat := [17, 34, 51, 68, 85, 102, 119, 136]

/-- The minimal container bytes: header (magic, version 2, total 40), JSON
chunk header (length 4, JSON tag) and a 4-byte JSON chunk (whose parse is the
oracle constant gltfC2), BIN chunk header (length 8, BIN tag), 8 data bytes. -/
def glbBytesC2 : List Nat :=
  u32le GLBMagic ++ u32le 2 ++ u32le 40
    ++ u32le 4 ++ u32le JSONChunkTag ++ [32, 32, 32, 32]
    ++ u32le 8 ++ u32le BINChunkTag ++ binC2

/-- The parse oracle for the minimal container. -/
def parseC2 : List Nat → Except JsError Gltf := fun _ => .ok gltfC2

/-- Environment for the C4 counterexample: one 5-byte external buffer file. -/
def envC4 : Env :=
  ⟨fun _ u => u, fun name => if name = "d.bin" then some [1, 2, 3, 4, 5] else none, fun s => s⟩

/-- A document with one generic bufferView of UNALIGNED byteLength 5, backed
by an external buffer file (so that decomposition reaches the rewrite pass). -/
def gltfC4 : Gltf :=
  { buffers := [⟨some "d.bin", 5⟩],
    bufferViews := [⟨0, some 0, 5⟩],
    images := none, shaders := none, extensions := none,
    accessors := none, meshes := none }

/-- Environment for the C5 scenario: one 4-byte image buffer file. -/
def envC5 : Env :=
  ⟨fun _ u => u, fun name => if name = "i.bin" then some [9, 9, 9, 9] else none, fun s => s⟩

/-- A document with one bufferView referenced by an image with MIME type
image/png, backed by an external buffer file. -/
def gltfC5 : Gltf :=
  { buffers := [⟨some "i.bin", 4⟩],
    bufferViews := [⟨0, some 0, 4⟩],
    images := some [⟨some 0, some "image/png", none⟩],
    shaders := none, extensions := none, accessors := none, meshes := none }

/-- A composition input whose extensions array holds one entry with a
malformed data uri (no semicolon), which dataFromUri resolves to null. -/
def gltfC6 : GlbGltf :=
  { buffers := [], bufferViews := [], images := none, shaders := none,
    extensions := some [⟨"E", [⟨"P", some [⟨none, none, some "data:abc"⟩]⟩]⟩] }

/-- Claim C1 (code_bug evidence). The claim says that for a buffer descriptor
with absent uri, the loader invoked during decomposition returns the embedded
binary-chunk bytes. In this source, getBuffer has only three parameters, the
binBuffer argument passed at every importProvider call site is ignored, and
dataFromUri returns null for an absent uri, so getBuffer returns null and
addToBinaryBuf on a view of such a buffer throws the content-not-found error
instead. -/
theorem c1_getBuffer_returns_null_for_absent_uri :
    ∀ (env : Env) (gltf : Gltf) (idx : Nat) (basePath : String)
      (binBuffer : List Nat) (b : BufferDesc),
      gltf.buffers.get? idx = some b → b.uri = none →
      getBufferCallSite env gltf idx basePath binBuffer = .ok none
        ∧ (∀ (st : DecompState) (i : Nat) (view : BufferView),
            st.gltf = gltf → gltf.bufferViews.get? i = some view → view.buffer = idx →
            addToBinaryBuf env basePath binBuffer st i = .error .contentNotFound) := by
  intro env gltf idx basePath binBuffer b h1 h2
  have h1g : gltf.buffers[idx]? = some b := by
    simpa [List.get?_eq_getElem?] using h1
  have hget : getBuffer env gltf idx basePath = .ok none := by
    simp [getBuffer, h1g, h2, dataFromUri]
  refine ⟨by simpa [getBufferCallSite] using hget, ?_⟩
  intro st i view hst hview hbuf
  have hviewg : gltf.bufferViews[i]? = some view := by
    simpa [List.get?_eq_getElem?] using hview
  simp [addToBinaryBuf, hst, hviewg, getBufferCallSite, hbuf, hget]

/-- Witness for C1 at the minimal container: buffers[0] of gltfC2 has no uri;
the call-site getBuffer returns null and addToBinaryBuf on bufferView 0
fails. -/
theorem c1_witness :
    getBufferCallSite envNone gltfC2 0 "." binC2 = .ok none
      ∧ addToBinaryBuf envNone "." binC2 ⟨gltfC2, [], [], []⟩ 0 = .error .contentNotFound := by
  have h := c1_getBuffer_returns_null_for_absent_uri envNone gltfC2 0 "." binC2
    ⟨none, 8⟩ rfl rfl
  exact ⟨h.1, h.2 ⟨gltfC2, [], [], []⟩ 0 ⟨0, some 0, 8⟩ rfl rfl rfl⟩

/-- Claim C2 (code_bug evidence): decomposing the minimal valid container of
the claim does not produce the described .gltf and sidecar; it fails with the
content-not-found error, because buffers[0] has no uri and the loader ignores
the binary chunk (see C1). -/
theorem c2_minimal_container_decomposition_fails :
    ConvertGLBtoGltfModel envNone parseC2 glbBytesC2 "." "t" = .error .contentNotFound := rfl

/-- Another minimal valid container (uri-less 4-byte buffer, one bufferView),
for the round-trip claim. -/
def gltfC3 : Gltf :=
  { buffers := [⟨none, 4⟩],
    bufferViews := [⟨0, some 0, 4⟩],
    images := none, shaders := none, extensions := none,
    accessors := none, meshes := none }

/-- Claim C3 (code_bug evidence): the decompose-then-compose round trip fails
on a valid container with an embedded binary chunk, because the decomposition
direction itself fails (same root cause as C1), so no decomposed result
exists to feed to composition. -/
theorem c3_roundtrip_fails_at_decomposition :
    doConversionCore envNone gltfC3 [7, 7, 7, 7] "." "u" = .error .contentNotFound := rfl

/-- Claim C4 counterexample: for the generic bufferView of byteLength 5, the
rewritten entry has byteLength 8 (the 4-byte-aligned padded length of the
collected data part), not the original unpadded length 5 the claim states. -/
theorem c4_counterexample :
    Except.map (fun r => r.gltf.bufferViews) (doConversionCore envC4 gltfC4 [] "." "t")
        = .ok [⟨0, some 0, 8⟩]
      ∧ (8 : Nat) ≠ 5 := ⟨rfl, by decide⟩

/-- Claim C5 (code_bug evidence): the image sidecar for a png image is named
t_img0undefined, not t_img0.png: guessFileExtension returns a string, the
call site reads the nonexistent .extension property of it, and concatenating
the resulting undefined appends the text undefined. -/
theorem c5_image_sidecar_filename_is_undefined :
    Except.map (fun r => r.files.map Prod.fst) (doConversionCore envC5 gltfC5 [] "." "t")
        = .ok ["t_img0undefined"]
      ∧ "t_img0undefined" ≠ "t_img0.png" := ⟨rfl, by decide⟩

/-- Claim C6 counterexample: an extensions-array entry whose uri resolves to
no data keeps its uri after composition (the extensions loop has no
delete-uri branch, unlike the images and shaders loops). -/
theorem c6_counterexample :
    Except.map (fun r => r.gltf.extensions) (ConvertToGLBCore envNone gltfC6 "s")
        = .ok (some [⟨"E", [⟨"P", some [⟨none, none, some "data:abc"⟩]⟩]⟩])
      ∧ (some "data:abc" : Option String) ≠ none := ⟨rfl, by decide⟩

/-- Claim C8: an input whose first four bytes are the GLB magic but whose
version field is not 2 makes the conversion fail with the unsupported-version
error; readSourceFile raises before doConversion runs, so no output is
produced (files exist only inside an ok result). The length hypothesis
reflects that the four version bytes must exist for Node readUInt32LE. -/
theorem c8_version_gate :
    ∀ (env : Env) (parse : List Nat → Except JsError Gltf) (sourceBuf : List Nat)
      (pathBase targetBasename : String),
      8 ≤ sourceBuf.length →
      readUInt32LE sourceBuf 0 = GLBMagic →
      readUInt32LE sourceBuf 4 ≠ 2 →
      ConvertGLBtoGltfModel env parse sourceBuf pathBase targetBasename
        = .error (.unsupportedVersion (readUInt32LE sourceBuf 4)) := by
  intro env parse sourceBuf pathBase targetBasename hlen hmagic hver
  simp [ConvertGLBtoGltfModel, readSourceFileBytes, hmagic, hver]

/-- Witness for C8: the magic followed by version 1. -/
theorem c8_witness :
    ConvertGLBtoGltfModel envNone parseC2 [0x67, 0x6C, 0x54, 0x46, 1, 0, 0, 0] "." "t"
      = .error (.unsupportedVersion 1) := by
  have h := c8_version_gate envNone parseC2 [0x67, 0x6C, 0x54, 0x46, 1, 0, 0, 0] "." "t"
    (by decide) (by decide) (by decide)
  simpa using h

/-- An entry of the images loop whose dataFromUri is null comes out with its
uri deleted and nothing else changed (exportProvider.ts lines 183-186). -/
theorem imagesPass_unresolved :
    ∀ (env : Env) (src : String) (l : List ImageEntry) (st : GlbState)
      (out : List ImageEntry × GlbState) (i : Nat) (im : ImageEntry),
      imagesPass env src l st = .ok out →
      l.get? i = some im → dataFromUri env im.uri src = .ok none →
      out.1.get? i = some { im with uri := none } := by
  intro env src l
  induction l with
  | nil => intro st out i im h h1 h2; simp [List.get?] at h1
  | cons im0 rest ih =>
    intro st out i im h h1 h2
    cases hd : dataFromUri env im0.uri src with
    | error e => simp [imagesPass, hd] at h
    | ok v =>
      cases v with
      | none =>
        cases hrec : imagesPass env src rest st with
        | error e => simp [imagesPass, hd, hrec] at h
        | ok out2 =>
          simp [imagesPass, hd, hrec] at h
          cases i with
          | zero =>
            simp [List.get?] at h1
            subst h1
            simp [← h, List.get?]
          | succ n =>
            have h1n : rest.get? n = some im := by simpa [List.get?] using h1
            have := ih st out2 n im hrec h1n h2
            rw [← h]
            simpa [List.get?, List.get?_eq_getElem?] using this
      | some data =>
        cases hrec : imagesPass env src rest (convertToBufferView st data).1 with
        | error e => simp [imagesPass, hd, hrec] at h
        | ok out2 =>
          simp [imagesPass, hd, hrec] at h
          cases i with
          | zero =>
            simp [List.get?] at h1
            subst h1
            rw [hd] at h2
            simp at h2
          | succ n =>
            have h1n : rest.get? n = some im := by simpa [List.get?] using h1
            have := ih (convertToBufferView st data).1 out2 n im hrec h1n h2
            rw [← h]
            simpa [List.get?, List.get?_eq_getElem?] using this

/-- The shaders-loop analogue of imagesPass_unresolved
(exportProvider.ts lines 195-198). -/
theorem shadersPass_unresolved :
    ∀ (env : Env) (src : String) (l : List ShaderEntry) (st : GlbState)
      (out : List ShaderEntry × GlbState) (i : Nat) (sh : ShaderEntry),
      shadersPass env src l st = .ok out →
      l.get? i = some sh → dataFromUri env sh.uri src = .ok none →
      out.1.get? i = some { sh with uri := none } := by
  intro env src l
  induction l with
  | nil => intro st out i sh h h1 h2; simp [List.get?] at h1
  | cons sh0 rest ih =>
    intro st out i sh h h1 h2
    cases hd : dataFromUri env sh0.uri src with
    | error e => simp [shadersPass, hd] at h
    | ok v =>
      cases v with
      | none =>
        cases hrec : shadersPass env src rest st with
        | error e => simp [shadersPass, hd, hrec] at h
        | ok out2 =>
          simp [shadersPass, hd, hrec] at h
          cases i with
          | zero =>
            simp [List.get?] at h1
            subst h1
            simp [← h, List.get?]
          | succ n =>
            have h1n : rest.get? n = some sh := by simpa [List.get?] using h1
            have := ih st out2 n sh hrec h1n h2
            rw [← h]
            simpa [List.get?, List.get?_eq_getElem?] using this
      | some data =>
        cases hrec : shadersPass env src rest (convertToBufferView st data).1 with
        | error e => simp [shadersPass, hd, hrec] at h
        | ok out2 =>
          simp [shadersPass, hd, hrec] at h
          cases i with
          | zero =>
            simp [List.get?] at h1
            subst h1
            rw [hd] at h2
            simp at h2
          | succ n =>
            have h1n : rest.get? n = some sh := by simpa [List.get?] using h1
            have := ih (convertToBufferView st data).1 out2 n sh hrec h1n h2
            rw [← h]
            simpa [List.get?, List.get?_eq_getElem?] using this

/-- The extensions-loop analogue: an entry whose dataFromUri is null is left
COMPLETELY unchanged, its uri included (exportProvider.ts lines 212-214 have
no delete). -/
theorem extEntriesPass_unresolved :
    ∀ (env : Env) (src : String) (l : List ExtEntry) (st : GlbState)
      (out : List ExtEntry × GlbState) (i : Nat) (b : ExtEntry),
      extEntriesPass env src l st = .ok out →
      l.get? i = some b → dataFromUri env b.uri src = .ok none →
      out.1.get? i = some b := by
  intro env src l
  induction l with
  | nil => intro st out i b h h1 h2; simp [List.get?] at h1
  | cons b0 rest ih =>
    intro st out i b h h1 h2
    cases hd : dataFromUri env b0.uri src with
    | error e => simp [extEntriesPass, hd] at h
    | ok v =>
      cases v with
      | none =>
        cases hrec : extEntriesPass env src rest st with
        | error e => simp [extEntriesPass, hd, hrec] at h
        | ok out2 =>
          simp [extEntriesPass, hd, hrec] at h
          cases i with
          | zero =>
            simp [List.get?] at h1
            subst h1
            simp [← h, List.get?]
          | succ n =>
            have h1n : rest.get? n = some b := by simpa [List.get?] using h1
            have := ih st out2 n b hrec h1n h2
            rw [← h]
            simpa [List.get?, List.get?_eq_getElem?] using this
      | some data =>
        cases hrec : extEntriesPass env src rest (convertToBufferView st data).1 with
        | error e => simp [extEntriesPass, hd, hrec] at h
        | ok out2 =>
          simp [extEntriesPass, hd, hrec] at h
          cases i with
          | zero =>
            simp [List.get?] at h1
            subst h1
            rw [hd] at h2
            simp at h2
          | succ n =>
            have h1n : rest.get? n = some b := by simpa [List.get?] using h1
            have := ih (convertToBufferView st data).1 out2 n b hrec h1n h2
            rw [← h]
            simpa [List.get?, List.get?_eq_getElem?] using this

/-- The images loop never fails when every entry's dataFromUri returns
without throwing. -/
theorem imagesPass_total :
    ∀ (env : Env) (src : String) (l : List ImageEntry) (st : GlbState),
      (∀ im ∈ l, ∃ v, dataFromUri env im.uri src = .ok v) →
      ∃ out, imagesPass env src l st = .ok out := by
  intro env src l
  induction l with
  | nil => intro st h; exact ⟨([], st), rfl⟩
  | cons im0 rest ih =>
    intro st h
    obtain ⟨v, hv⟩ := h im0 (by simp)
    cases v with
    | none =>
      obtain ⟨out2, hout2⟩ := ih st (fun im hm => h im (by simp [hm]))
      exact ⟨({ im0 with uri := none } :: out2.1, out2.2), by simp [imagesPass, hv, hout2]⟩
    | some data =>
      obtain ⟨out2, hout2⟩ :=
        ih (convertToBufferView st data).1 (fun im hm => h im (by simp [hm]))
      let im2 : ImageEntry := { im0 with bufferView := some (convertToBufferView st data).2, mimeType := some data.mimeType, uri := none }
      exact ⟨(im2 :: out2.1, out2.2), by simp [imagesPass, hv, hout2]⟩

/-- The shaders loop never fails when every entry's dataFromUri returns
without throwing. -/
theorem shadersPass_total :
    ∀ (env : Env) (src : String) (l : List ShaderEntry) (st : GlbState),
      (∀ sh ∈ l, ∃ v, dataFromUri env sh.uri src = .ok v) →
      ∃ out, shadersPass env src l st = .ok out := by
  intro env src l
  induction l with
  | nil => intro st h; exact ⟨([], st), rfl⟩
  | cons sh0 rest ih =>
    intro st h
    obtain ⟨v, hv⟩ := h sh0 (by simp)
    cases v with
    | none =>
      obtain ⟨out2, hout2⟩ := ih st (fun sh hm => h sh (by simp [hm]))
      exact ⟨({ sh0 with uri := none } :: out2.1, out2.2), by simp [shadersPass, hv, hout2]⟩
    | some data =>
      obtain ⟨out2, hout2⟩ :=
        ih (convertToBufferView st data).1 (fun sh hm => h sh (by simp [hm]))
      let sh2 : ShaderEntry := { sh0 with bufferView := some (convertToBufferView st data).2, mimeType := some data.mimeType, uri := none }
      exact ⟨(sh2 :: out2.1, out2.2), by simp [shadersPass, hv, hout2]⟩

/-- The extension-entries loop never fails when every entry's dataFromUri
returns without throwing. -/
theorem extEntriesPass_total :
    ∀ (env : Env) (src : String) (l : List ExtEntry) (st : GlbState),
      (∀ b ∈ l, ∃ v, dataFromUri env b.uri src = .ok v) →
      ∃ out, extEntriesPass env src l st = .ok out := by
  intro env src l
  induction l with
  | nil => intro st h; exact ⟨([], st), rfl⟩
  | cons b0 rest ih =>
    intro st h
    obtain ⟨v, hv⟩ := h b0 (by simp)
    cases v with
    | none =>
      obtain ⟨out2, hout2⟩ := ih st (fun b hm => h b (by simp [hm]))
      exact ⟨(b0 :: out2.1, out2.2), by simp [extEntriesPass, hv, hout2]⟩
    | some data =>
      obtain ⟨out2, hout2⟩ :=
        ih (convertToBufferView st data).1 (fun b hm => h b (by simp [hm]))
      let b2 : ExtEntry := { b0 with bufferView := some (convertToBufferView st data).2, mimeType := some data.mimeType, uri := none }
      exact ⟨(b2 :: out2.1, out2.2), by simp [extEntriesPass, hv, hout2]⟩

/-- Claim C6 (amended): during composition, an images or shaders entry whose
uri cannot be resolved to data has its uri removed, while an entry of an
array-valued extensions property whose uri cannot be resolved is skipped with
its uri left in place; in every case the entry is not assigned a bufferView
and the situation is not treated as an error (the passes complete whenever no
entry makes the loader throw). -/
theorem c6_unresolved_entries :
    (∀ (env : Env) (src : String) (l : List ImageEntry) (st : GlbState)
        (out : List ImageEntry × GlbState) (i : Nat) (im : ImageEntry),
        imagesPass env src l st = .ok out → l.get? i = some im →
        dataFromUri env im.uri src = .ok none →
        out.1.get? i = some { im with uri := none })
  ∧ (∀ (env : Env) (src : String) (l : List ShaderEntry) (st : GlbState)
        (out : List ShaderEntry × GlbState) (i : Nat) (sh : ShaderEntry),
        shadersPass env src l st = .ok out → l.get? i = some sh →
        dataFromUri env sh.uri src = .ok none →
        out.1.get? i = some { sh with uri := none })
  ∧ (∀ (env : Env) (src : String) (l : List ExtEntry) (st : GlbState)
        (out : List ExtEntry × GlbState) (i : Nat) (b : ExtEntry),
        extEntriesPass env src l st = .ok out → l.get? i = some b →
        dataFromUri env b.uri src = .ok none →
        out.1.get? i = some b)
  ∧ (∀ (env : Env) (src : String) (l : List ImageEntry) (st : GlbState),
        (∀ im ∈ l, ∃ v, dataFromUri env im.uri src = .ok v) →
        ∃ out, imagesPass env src l st = .ok out)
  ∧ (∀ (env : Env) (src : String) (l : List ShaderEntry) (st : GlbState),
        (∀ sh ∈ l, ∃ v, dataFromUri env sh.uri src = .ok v) →
        ∃ out, shadersPass env src l st = .ok out)
  ∧ (∀ (env : Env) (src : String) (l : List ExtEntry) (st : GlbState),
        (∀ b ∈ l, ∃ v, dataFromUri env b.uri src = .ok v) →
        ∃ out, extEntriesPass env src l st = .ok out) :=
  ⟨imagesPass_unresolved, shadersPass_unresolved, extEntriesPass_unresolved,
   imagesPass_total, shadersPass_total, extEntriesPass_total⟩

/-- An empty composition state for witnesses. -/
def stEmpty : GlbState := ⟨⟨[], [], none, none, none⟩, [], 0, [], 0⟩

/-- Witness for C6 at a malformed data uri: the image comes out with the uri
deleted, the extension entry comes out unchanged. -/
theorem c6_witness :
    ([(⟨none, none, none⟩ : ImageEntry)].get? 0 = some (⟨none, none, none⟩ : ImageEntry))
      ∧ ([(⟨none, none, some "data:abc"⟩ : ExtEntry)].get? 0
          = some (⟨none, none, some "data:abc"⟩ : ExtEntry)) := by
  constructor
  · exact c6_unresolved_entries.1 envNone "s" [⟨none, none, some "data:abc"⟩] stEmpty
      ([⟨none, none, none⟩], stEmpty) 0 ⟨none, none, some "data:abc"⟩ rfl rfl rfl
  · exact c6_unresolved_entries.2.2.1 envNone "s" [⟨none, none, some "data:abc"⟩] stEmpty
      ([⟨none, none, some "data:abc"⟩], stEmpty) 0 ⟨none, none, some "data:abc"⟩ rfl rfl rfl

/-- Total length of a list of byte lists. -/
def sumLens (ds : List (List Nat)) : Nat := (ds.map List.length).sum

theorem jsSlice_length (buf : List Nat) (offset len : Nat) :
    (jsSlice buf offset len).length = min len (buf.length - offset) := by
  simp [jsSlice]

theorem bufferAllocFill_length (size : Nat) (fill : List Nat) :
    (bufferAllocFill size fill).length = size := by
  simp [bufferAllocFill]

/-- The i-th rewritten generic bufferView: buffer 0, byteOffset the cursor
(the sum of the lengths of the previously collected parts), byteLength the
length of the i-th collected part. -/
theorem buildNewBufferViews_get :
    ∀ (oldViews : List BufferView) (vis : List Nat) (ds : List (List Nat))
      (cur i vi : Nat) (d : List Nat),
      vis.get? i = some vi → ds.get? i = some d →
      (buildNewBufferViews oldViews vis ds cur).get? i
        = some ⟨0, some (cur + sumLens (ds.take i)), d.length⟩ := by
  intro oldViews vis
  induction vis with
  | nil => intro ds cur i vi d h1 h2; simp [List.get?] at h1
  | cons v0 vs ih =>
    intro ds cur i vi d h1 h2
    cases ds with
    | nil => simp [List.get?] at h2
    | cons d0 ds0 =>
      cases i with
      | zero =>
        simp [List.get?] at h2
        subst h2
        simp [buildNewBufferViews, List.get?, sumLens]
      | succ n =>
        have h1n : vs.get? n = some vi := by simpa [List.get?] using h1
        have h2n : ds0.get? n = some d := by simpa [List.get?] using h2
        have := ih ds0 (cur + d0.length) n vi d h1n h2n
        simp only [buildNewBufferViews, List.get?]
        rw [this]
        simp [sumLens, Nat.add_assoc]

/-- addToBinaryBuf appends the view index and a data part whose length is the
aligned length of the view's byteLength, when the view's byte range lies
inside the resolved buffer. -/
theorem addToBinaryBuf_result :
    ∀ (env : Env) (pathBase : String) (binBuffer : List Nat) (st : DecompState)
      (i : Nat) (view : BufferView) (buf : List Nat),
      st.gltf.bufferViews.get? i = some view →
      getBufferCallSite env st.gltf view.buffer pathBase binBuffer = .ok (some buf) →
      view.byteOffset.getD 0 + view.byteLength ≤ buf.length →
      Except.map (fun s => s.bufferViewList) (addToBinaryBuf env pathBase binBuffer st i)
          = .ok (st.bufferViewList ++ [i])
        ∧ Except.map (fun s => s.bufferDataList.map List.length)
            (addToBinaryBuf env pathBase binBuffer st i)
          = .ok (st.bufferDataList.map List.length ++ [alignedLength view.byteLength]) := by
  intro env pathBase binBuffer st i view buf hview hbuf hrange
  have hviewg : st.gltf.bufferViews[i]? = some view := by
    simpa [List.get?_eq_getElem?] using hview
  have hpart :
      (if view.byteLength = alignedLength view.byteLength then
          jsSlice buf (view.byteOffset.getD 0) view.byteLength
        else
          bufferAllocFill (alignedLength view.byteLength)
            (jsSlice buf (view.byteOffset.getD 0) view.byteLength)).length
        = alignedLength view.byteLength := by
    split
    · rw [jsSlice_length]
      omega
    · exact bufferAllocFill_length _ _
  refine ⟨?_, ?_⟩
  · simp [addToBinaryBuf, hviewg, hbuf, Except.map]
  · simp [addToBinaryBuf, hviewg, hbuf, hpart, Except.map]

/-- Claim C4 (amended): the rewritten generic bufferView entry has buffer 0,
byteOffset the running cursor, and byteLength the length of the collected
data part, which is the 4-byte-aligned PADDED length of the original
byteLength (when the view's range lies inside its buffer); the cursor
advances by that same length. -/
theorem c4_generic_rewrite_amended :
    (∀ (oldViews : List BufferView) (vis : List Nat) (ds : List (List Nat))
        (cur i vi : Nat) (d : List Nat),
        vis.get? i = some vi → ds.get? i = some d →
        (buildNewBufferViews oldViews vis ds cur).get? i
          = some ⟨0, some (cur + sumLens (ds.take i)), d.length⟩)
  ∧ (∀ (env : Env) (pathBase : String) (binBuffer : List Nat) (st : DecompState)
        (i : Nat) (view : BufferView) (buf : List Nat),
        st.gltf.bufferViews.get? i = some view →
        getBufferCallSite env st.gltf view.buffer pathBase binBuffer = .ok (some buf) →
        view.byteOffset.getD 0 + view.byteLength ≤ buf.length →
        Except.map (fun s => s.bufferViewList) (addToBinaryBuf env pathBase binBuffer st i)
            = .ok (st.bufferViewList ++ [i])
          ∧ Except.map (fun s => s.bufferDataList.map List.length)
              (addToBinaryBuf env pathBase binBuffer st i)
            = .ok (st.bufferDataList.map List.length ++ [alignedLength view.byteLength])) :=
  ⟨buildNewBufferViews_get, addToBinaryBuf_result⟩

/-- Witness for C4 at the concrete 5-byte view of the counterexample: the
rewrite places the entry at cursor 0 with byteLength 8 and addToBinaryBuf
collects an 8-byte (aligned) part. -/
theorem c4_witness :
    ((buildNewBufferViews [⟨0, some 0, 5⟩] [0] [[1, 2, 3, 4, 5, 1, 2, 3]] 0).get? 0
        = some ⟨0, some (0 + sumLens ([[1, 2, 3, 4, 5, 1, 2, 3]].take 0)), 8⟩)
      ∧ Except.map (fun s => s.bufferDataList.map List.length)
          (addToBinaryBuf envC4 "." [] ⟨gltfC4, [], [], []⟩ 0)
        = .ok ([] ++ [alignedLength 5]) := by
  constructor
  · exact c4_generic_rewrite_amended.1 [⟨0, some 0, 5⟩] [0] [[1, 2, 3, 4, 5, 1, 2, 3]]
      0 0 0 [1, 2, 3, 4, 5, 1, 2, 3] rfl rfl
  · exact (c4_generic_rewrite_amended.2 envC4 "." [] ⟨gltfC4, [], [], []⟩ 0
      ⟨0, some 0, 5⟩ [1, 2, 3, 4, 5] rfl rfl (by decide)).2

/-- Whether a JS byteOffset value is an actual number (not NaN, not absent). -/
def isNumOffset : Option JsNum → Bool
  | some (.num _) => true
  | _ => false

/-- The merge pass is positionwise: the i-th merged view shifts the i-th
input view by the (unguarded) map lookup for its buffer. -/
theorem mergeViews_get :
    ∀ (m : List (Nat × Nat)) (views : List GlbBufferView) (i : Nat) (v : GlbBufferView),
      views.get? i = some v →
      (mergeViews m views).get? i
        = some { v with byteOffset := some (jsAddOpt (jsOrZero v.byteOffset) (mapGet m v.buffer)),
                        buffer := 0 } := by
  intro m views i v hv
  have hvg : views[i]? = some v := by simpa [List.get?_eq_getElem?] using hv
  simp [mergeViews, List.get?_eq_getElem?, List.getElem?_map, hvg]

/-- When every buffers[] entry resolves to data, the offset map recorded by
the buffers loop contains every buffer index. -/
theorem buffersPass_mapGet :
    ∀ (env : Env) (src : String) (bufs : List BufferDesc) (idx off : Nat)
      (out : BuffersPassOut),
      buffersPass env src bufs idx off = .ok out →
      (∀ b ∈ bufs, ∃ d, dataFromUri env b.uri src = .ok (some d)) →
      ∀ j, j < bufs.length → (mapGet out.bufferMap (idx + j)).isSome = true := by
  intro env src bufs
  induction bufs with
  | nil =>
    intro idx off out h hall j hj
    simp at hj
  | cons b rest ih =>
    intro idx off out h hall j hj
    obtain ⟨d, hd⟩ := hall b (by simp)
    cases hrec : buffersPass env src rest (idx + 1) (off + alignedLength d.buffer.length) with
    | error e => simp [buffersPass, hd, hrec] at h
    | ok out2 =>
      simp [buffersPass, hd, hrec] at h
      cases j with
      | zero =>
        rw [← h]
        simp [mapGet, List.find?]
      | succ n =>
        have hmem : ∀ x ∈ rest, ∃ d2, dataFromUri env x.uri src = .ok (some d2) :=
          fun x hx => hall x (by simp [hx])
        have hrest := ih (idx + 1) (off + alignedLength d.buffer.length) out2 hrec hmem n
          (by simp at hj; omega)
        have hne : (idx == idx + (n + 1)) = false := beq_eq_false_iff_ne.mpr (by omega)
        rw [← h]
        simp only [mapGet, List.find?, hne]
        have harith : idx + (n + 1) = (idx + 1) + n := by omega
        rw [harith]
        simpa [mapGet] using hrest

/-- Claim C10: the unguarded offset-map lookup of the merge pass. Under the
precondition that every buffers[] entry resolves to data and the view
references an existing buffers entry, the lookup succeeds and the rewritten
byteOffset is an actual number; a view whose buffer was skipped (no recorded
offset) silently gets a NaN byteOffset instead of an error. -/
theorem c10_merge_offset_lookup :
    (∀ (env : Env) (src : String) (bufs : List BufferDesc) (out : BuffersPassOut)
        (views : List GlbBufferView) (i : Nat) (v : GlbBufferView),
        buffersPass env src bufs 0 0 = .ok out →
        (∀ b ∈ bufs, ∃ d, dataFromUri env b.uri src = .ok (some d)) →
        views.get? i = some v → v.buffer < bufs.length →
        (mapGet out.bufferMap v.buffer).isSome = true
          ∧ isNumOffset (((mergeViews out.bufferMap views).get? i).getD ⟨0, none, 0⟩).byteOffset
              = true)
  ∧ (∀ (m : List (Nat × Nat)) (views : List GlbBufferView) (i : Nat) (v : GlbBufferView),
        views.get? i = some v → mapGet m v.buffer = none →
        (mergeViews m views).get? i = some { v with byteOffset := some JsNum.nan, buffer := 0 }) := by
  constructor
  · intro env src bufs out views i v hpass hall hv hlt
    have hsome : (mapGet out.bufferMap v.buffer).isSome = true := by
      have := buffersPass_mapGet env src bufs 0 0 out hpass hall v.buffer hlt
      simpa using this
    refine ⟨hsome, ?_⟩
    obtain ⟨b, hb⟩ := Option.isSome_iff_exists.mp hsome
    rw [mergeViews_get out.bufferMap views i v hv]
    simp [hb, jsAddOpt, isNumOffset]
  · intro m views i v hv hnone
    rw [mergeViews_get m views i v hv, hnone]
    simp [jsAddOpt]

/-- Witness for C10: a one-buffer document whose buffer is an embedded png
data uri (so it resolves without any filesystem); the view over buffer 0 gets
a numeric offset, while a view over the unmapped buffer 5 gets NaN. -/
theorem c10_witness :
    ((mapGet [(0, 0)] 0).isSome = true
        ∧ isNumOffset (((mergeViews [(0, 0)] [⟨0, some (.num 4), 10⟩]).get? 0).getD
            ⟨0, none, 0⟩).byteOffset = true)
      ∧ (mergeViews [] [⟨5, none, 2⟩]).get? 0 = some ⟨0, some JsNum.nan, 2⟩ := by
  constructor
  · exact c10_merge_offset_lookup.1 envNone "s" [⟨some "data:image/png;base64,AAAA", 0⟩]
      ⟨[⟨none, 3⟩], [[0, 0, 0]], [(0, 0)], 4⟩ [⟨0, some (.num 4), 10⟩] 0 ⟨0, some (.num 4), 10⟩
      rfl (by intro b hb; simp at hb; subst hb; exact ⟨⟨"image/png", [0, 0, 0]⟩, rfl⟩)
      rfl (by decide)
  · exact c10_merge_offset_lookup.2 [] [⟨5, none, 2⟩] 0 ⟨5, none, 2⟩ rfl rfl

theorem jsArrayIndexOf_none_iff (l : List Nat) (o : Nat) :
    jsArrayIndexOf l o = none ↔ o ∉ l := by
  induction l with
  | nil => simp [jsArrayIndexOf]
  | cons x rest ih =>
    simp only [jsArrayIndexOf]
    by_cases hx : x = o
    · subst hx
      simp
    · rw [if_neg hx, Option.map_eq_none', ih]
      constructor
      · intro h hmem
        rcases List.mem_cons.mp hmem with hcase | hcase
        · exact hx hcase.symm
        · exact h hcase
      · intro h hmem
        exact h (List.mem_cons_of_mem x hmem)

theorem getNewBufferViewIndex_error_of_not_mem {l : List Nat} {o : Nat} (h : o ∉ l) :
    getNewBufferViewIndex l o = .error .indexMapping := by
  simp [getNewBufferViewIndex, (jsArrayIndexOf_none_iff l o).mpr h]

theorem getNewBufferViewIndex_ok_mem {l : List Nat} {o n : Nat}
    (h : getNewBufferViewIndex l o = .ok n) : o ∈ l := by
  by_contra hmem
  rw [getNewBufferViewIndex_error_of_not_mem hmem] at h
  cases h

theorem getNewBufferViewIndex_error_shape {l : List Nat} {o : Nat} {e : JsError}
    (h : getNewBufferViewIndex l o = .error e) : e = .indexMapping := by
  unfold getNewBufferViewIndex at h
  cases hj : jsArrayIndexOf l o <;> rw [hj] at h <;> cases h <;> rfl

theorem getNewBufferViewIndexJs_error_shape {l : List Nat} {o : Option Nat} {e : JsError}
    (h : getNewBufferViewIndexJs l o = .error e) : e = .indexMapping := by
  cases o with
  | none => cases h; rfl
  | some v => exact getNewBufferViewIndex_error_shape h

/-- A reference site inside an accessor that holds an old bufferView index
absent from the generic list. -/
def accessorBadSite (l : List Nat) (a : Accessor) : Prop :=
  (∃ o, a.bufferView = some o ∧ o ∉ l)
    ∨ (∃ s, a.sparse = some s
        ∧ ((∃ sr o, s.indices = some sr ∧ sr.bufferView = some o ∧ o ∉ l)
            ∨ (∃ sr o, s.values = some sr ∧ sr.bufferView = some o ∧ o ∉ l)))

/-- A draco reference site inside a mesh that holds an old bufferView index
absent from the generic list. -/
def meshBadSite (l : List Nat) (m : Mesh) : Prop :=
  ∃ p ∈ m.primitives, ∃ pe d o, p.extensions = some pe
    ∧ pe.KHR_draco_mesh_compression = some d ∧ d.bufferView = some o ∧ o ∉ l

/-- Some bufferView-reference site of the document holds an old index that
was not placed in the generic list. -/
def hasUnmappedReference (l : List Nat) (g : Gltf) : Prop :=
  (∃ accs, g.accessors = some accs ∧ ∃ a ∈ accs, accessorBadSite l a)
    ∨ (∃ ms, g.meshes = some ms ∧ ∃ m ∈ ms, meshBadSite l m)

theorem renumberSparseRef_error_shape {l : List Nat} {s : Option SparseRef} {e : JsError}
    (h : renumberSparseRef l s = .error e) : e = .indexMapping := by
  cases s with
  | none => cases h
  | some sr =>
    simp only [renumberSparseRef] at h
    cases hb : sr.bufferView with
    | none => simp only [hb] at h; cases h
    | some old =>
      simp only [hb] at h
      cases hg : getNewBufferViewIndex l old with
      | error e2 =>
        simp only [hg] at h
        cases h
        exact getNewBufferViewIndex_error_shape hg
      | ok n => simp only [hg] at h; cases h

theorem renumberSparseRef_ok_mem {l : List Nat} {sr : SparseRef} {out : Option SparseRef}
    (h : renumberSparseRef l (some sr) = .ok out) :
    ∀ o, sr.bufferView = some o → o ∈ l := by
  intro o ho
  simp only [renumberSparseRef] at h
  simp only [ho] at h
  cases hg : getNewBufferViewIndex l o with
  | error e2 => simp only [hg] at h; cases h
  | ok n => exact getNewBufferViewIndex_ok_mem hg

theorem renumberAccessor_error_shape {l : List Nat} {a : Accessor} {e : JsError}
    (h : renumberAccessor l a = .error e) : e = .indexMapping := by
  simp only [renumberAccessor] at h
  cases hb : a.bufferView with
  | none =>
    simp only [hb] at h
    cases hs : a.sparse with
    | none => simp only [hs] at h; cases h
    | some s =>
      simp only [hs] at h
      cases hi : renumberSparseRef l s.indices with
      | error e2 =>
        simp only [hi] at h
        cases h
        exact renumberSparseRef_error_shape hi
      | ok ind =>
        simp only [hi] at h
        cases hv : renumberSparseRef l s.values with
        | error e2 =>
          simp only [hv] at h
          cases h
          exact renumberSparseRef_error_shape hv
        | ok vals => simp only [hv] at h; cases h
  | some old =>
    simp only [hb] at h
    cases hg : getNewBufferViewIndex l old with
    | error e2 =>
      simp only [hg] at h
      cases h
      exact getNewBufferViewIndex_error_shape hg
    | ok n =>
      simp only [hg] at h
      cases hs : a.sparse with
      | none => simp only [hs] at h; cases h
      | some s =>
        simp only [hs] at h
        cases hi : renumberSparseRef l s.indices with
        | error e2 =>
          simp only [hi] at h
          cases h
          exact renumberSparseRef_error_shape hi
        | ok ind =>
          simp only [hi] at h
          cases hv : renumberSparseRef l s.values with
          | error e2 =>
            simp only [hv] at h
            cases h
            exact renumberSparseRef_error_shape hv
          | ok vals => simp only [hv] at h; cases h

theorem renumberAccessor_ok_no_bad {l : List Nat} {a : Accessor} {a2 : Accessor}
    (h : renumberAccessor l a = .ok a2) : ¬ accessorBadSite l a := by
  intro hbad
  rcases hbad with ⟨o, ho, hmem⟩ | ⟨s, hs, hsite⟩
  · simp only [renumberAccessor, ho] at h
    rw [getNewBufferViewIndex_error_of_not_mem hmem] at h
    cases h
  · simp only [renumberAccessor] at h
    cases hb : a.bufferView with
    | none =>
      simp only [hb, hs] at h
      rcases hsite with ⟨sr, o, hsr, hsrb, hmem⟩ | ⟨sr, o, hsr, hsrb, hmem⟩
      · cases hi : renumberSparseRef l s.indices with
        | error e2 => simp only [hi] at h; cases h
        | ok ind =>
          exact hmem (renumberSparseRef_ok_mem (hsr ▸ hi) o hsrb)
      · cases hi : renumberSparseRef l s.indices with
        | error e2 => simp only [hi] at h; cases h
        | ok ind =>
          simp only [hi] at h
          cases hv : renumberSparseRef l s.values with
          | error e2 => simp only [hv] at h; cases h
          | ok vals =>
            exact hmem (renumberSparseRef_ok_mem (hsr ▸ hv) o hsrb)
    | some old =>
      simp only [hb] at h
      cases hg : getNewBufferViewIndex l old with
      | error e2 => simp only [hg] at h; cases h
      | ok n =>
        simp only [hg, hs] at h
        rcases hsite with ⟨sr, o, hsr, hsrb, hmem⟩ | ⟨sr, o, hsr, hsrb, hmem⟩
        · cases hi : renumberSparseRef l s.indices with
          | error e2 => simp only [hi] at h; cases h
          | ok ind =>
            exact hmem (renumberSparseRef_ok_mem (hsr ▸ hi) o hsrb)
        · cases hi : renumberSparseRef l s.indices with
          | error e2 => simp only [hi] at h; cases h
          | ok ind =>
            simp only [hi] at h
            cases hv : renumberSparseRef l s.values with
            | error e2 => simp only [hv] at h; cases h
            | ok vals =>
              exact hmem (renumberSparseRef_ok_mem (hsr ▸ hv) o hsrb)

theorem renumberAccessors_error_shape {l : List Nat} :
    ∀ {accs : List Accessor} {e : JsError},
      renumberAccessors l accs = .error e → e = .indexMapping := by
  intro accs
  induction accs with
  | nil => intro e h; cases h
  | cons a rest ih =>
    intro e h
    simp only [renumberAccessors] at h
    cases ha : renumberAccessor l a with
    | error e2 =>
      simp only [ha] at h
      cases h
      exact renumberAccessor_error_shape ha
    | ok a2 =>
      simp only [ha] at h
      cases hr : renumberAccessors l rest with
      | error e2 =>
        simp only [hr] at h
        cases h
        exact ih hr
      | ok r => simp only [hr] at h; cases h

theorem renumberAccessors_ok_no_bad {l : List Nat} :
    ∀ {accs : List Accessor} {out : List Accessor},
      renumberAccessors l accs = .ok out → ∀ a ∈ accs, ¬ accessorBadSite l a := by
  intro accs
  induction accs with
  | nil => intro out h a ha; cases ha
  | cons a0 rest ih =>
    intro out h a ha
    simp only [renumberAccessors] at h
    cases ha0 : renumberAccessor l a0 with
    | error e2 => simp only [ha0] at h; cases h
    | ok a2 =>
      simp only [ha0] at h
      cases hr : renumberAccessors l rest with
      | error e2 => simp only [hr] at h; cases h
      | ok r =>
        rcases List.mem_cons.mp ha with rfl | hmem
        · exact renumberAccessor_ok_no_bad ha0
        · exact ih hr a hmem

theorem renumberPrimitive_error_shape {l : List Nat} {p : Primitive} {e : JsError}
    (h : renumberPrimitive l p = .error e) : e = .indexMapping := by
  simp only [renumberPrimitive] at h
  cases hx : p.extensions with
  | none => simp only [hx] at h; cases h
  | some pe =>
    simp only [hx] at h
    cases hk : pe.KHR_draco_mesh_compression with
    | none => simp only [hk] at h; cases h
    | some d =>
      simp only [hk] at h
      cases hg : getNewBufferViewIndexJs l d.bufferView with
      | error e2 =>
        simp only [hg] at h
        cases h
        exact getNewBufferViewIndexJs_error_shape hg
      | ok n => simp only [hg] at h; cases h

theorem renumberPrimitive_ok_no_bad {l : List Nat} {p : Primitive} {p2 : Primitive}
    (h : renumberPrimitive l p = .ok p2) :
    ∀ pe d o, p.extensions = some pe → pe.KHR_draco_mesh_compression = some d →
      d.bufferView = some o → o ∈ l := by
  intro pe d o hx hk hb
  simp only [renumberPrimitive, hx, hk, hb] at h
  cases hg : getNewBufferViewIndex l o with
  | error e2 => simp only [getNewBufferViewIndexJs, hg] at h; cases h
  | ok n => exact getNewBufferViewIndex_ok_mem hg

theorem renumberPrimitives_error_shape {l : List Nat} :
    ∀ {ps : List Primitive} {e : JsError},
      renumberPrimitives l ps = .error e → e = .indexMapping := by
  intro ps
  induction ps with
  | nil => intro e h; cases h
  | cons p rest ih =>
    intro e h
    simp only [renumberPrimitives] at h
    cases hp : renumberPrimitive l p with
    | error e2 =>
      simp only [hp] at h
      cases h
      exact renumberPrimitive_error_shape hp
    | ok p2 =>
      simp only [hp] at h
      cases hr : renumberPrimitives l rest with
      | error e2 =>
        simp only [hr] at h
        cases h
        exact ih hr
      | ok r => simp only [hr] at h; cases h

theorem renumberPrimitives_ok_no_bad {l : List Nat} :
    ∀ {ps : List Primitive} {out : List Primitive},
      renumberPrimitives l ps = .ok out →
      ∀ p ∈ ps, ∀ pe d o, p.extensions = some pe →
        pe.KHR_draco_mesh_compression = some d → d.bufferView = some o → o ∈ l := by
  intro ps
  induction ps with
  | nil => intro out h p hp; cases hp
  | cons p0 rest ih =>
    intro out h p hp
    simp only [renumberPrimitives] at h
    cases hp0 : renumberPrimitive l p0 with
    | error e2 => simp only [hp0] at h; cases h
    | ok p2 =>
      simp only [hp0] at h
      cases hr : renumberPrimitives l rest with
      | error e2 => simp only [hr] at h; cases h
      | ok r =>
        rcases List.mem_cons.mp hp with rfl | hmem
        · exact renumberPrimitive_ok_no_bad hp0
        · exact ih hr p hmem

theorem renumberMeshes_error_shape {l : List Nat} :
    ∀ {ms : List Mesh} {e : JsError},
      renumberMeshes l ms = .error e → e = .indexMapping := by
  intro ms
  induction ms with
  | nil => intro e h; cases h
  | cons m rest ih =>
    intro e h
    simp only [renumberMeshes] at h
    cases hm : renumberPrimitives l m.primitives with
    | error e2 =>
      simp only [hm] at h
      cases h
      exact renumberPrimitives_error_shape hm
    | ok ps =>
      simp only [hm] at h
      cases hr : renumberMeshes l rest with
      | error e2 =>
        simp only [hr] at h
        cases h
        exact ih hr
      | ok r => simp only [hr] at h; cases h

theorem renumberMeshes_ok_no_bad {l : List Nat} :
    ∀ {ms : List Mesh} {out : List Mesh},
      renumberMeshes l ms = .ok out → ∀ m ∈ ms, ¬ meshBadSite l m := by
  intro ms
  induction ms with
  | nil => intro out h m hm; cases hm
  | cons m0 rest ih =>
    intro out h m hm
    simp only [renumberMeshes] at h
    cases hm0 : renumberPrimitives l m0.primitives with
    | error e2 => simp only [hm0] at h; cases h
    | ok ps =>
      simp only [hm0] at h
      cases hr : renumberMeshes l rest with
      | error e2 => simp only [hr] at h; cases h
      | ok r =>
        rcases List.mem_cons.mp hm with rfl | hmem
        · intro hbad
          obtain ⟨p, hp, pe, d, o, hx, hk, hb, hnotmem⟩ := hbad
          exact hnotmem (renumberPrimitives_ok_no_bad hm0 p hp pe d o hx hk hb)
        · exact ih hr m hmem

theorem renumberReferences_error_of_bad {l : List Nat} {g : Gltf}
    (hbad : hasUnmappedReference l g) :
    renumberReferences l g = .error .indexMapping := by
  simp only [renumberReferences]
  rcases hbad with ⟨accs, hacc, a, ha, hbadA⟩ | ⟨ms, hms, m, hm, hbadM⟩
  · simp only [hacc]
    cases hra : renumberAccessors l accs with
    | error e =>
      have he := renumberAccessors_error_shape hra
      subst he
      simp only [hra]
    | ok a2 =>
      exact absurd hbadA (renumberAccessors_ok_no_bad hra a ha)
  · cases hacc2 : g.accessors with
    | none =>
      simp only [hacc2, hms]
      cases hrm : renumberMeshes l ms with
      | error e =>
        have he := renumberMeshes_error_shape hrm
        subst he
        simp only [hrm]
      | ok r => exact absurd hbadM (renumberMeshes_ok_no_bad hrm m hm)
    | some accs =>
      simp only [hacc2]
      cases hra : renumberAccessors l accs with
      | error e =>
        have he := renumberAccessors_error_shape hra
        subst he
        simp only [hra]
      | ok a2 =>
        simp only [hra, hms]
        cases hrm : renumberMeshes l ms with
        | error e =>
          have he := renumberMeshes_error_shape hrm
          subst he
          simp only [hrm]
        | ok r => exact absurd hbadM (renumberMeshes_ok_no_bad hrm m hm)

/-- Claim C9: if, after classification, some bufferView-reference site (an
accessor's direct bufferView, a sparse indices/values bufferView, or a
primitive's draco bufferView) holds an old index that was not placed in the
generic list, the whole conversion fails with the index-mapping error instead
of producing an output container. The rewrite pass touches only the
bufferViews array, so the reference sites of the classified document are
exactly those the renumber pass reads. -/
theorem c9_unmapped_reference_fails :
    ∀ (env : Env) (pathBase targetBasename : String) (binBuffer : List Nat)
      (gltf0 : Gltf) (st : DecompState),
      classifyAll env pathBase targetBasename binBuffer gltf0 = .ok st →
      hasUnmappedReference st.bufferViewList st.gltf →
      doConversionCore env gltf0 binBuffer pathBase targetBasename
        = .error .indexMapping := by
  intro env pathBase targetBasename binBuffer gltf0 st hclass hbad
  have hbad2 : hasUnmappedReference st.bufferViewList
      (rewriteGenericViews st.gltf st.bufferViewList st.bufferDataList) := hbad
  simp only [doConversionCore, hclass]
  rw [renumberReferences_error_of_bad hbad2]

/-- Environment for the C9 witness: one 4-byte image buffer file. -/
def envC9 : Env :=
  ⟨fun _ u => u, fun name => if name = "a.bin" then some [1, 2, 3, 4] else none, fun s => s⟩

/-- A document whose only bufferView is classified as an image (so the
generic list stays empty) while accessors[0] still references old index 0. -/
def gltfC9 : Gltf :=
  { buffers := [⟨some "a.bin", 4⟩],
    bufferViews := [⟨0, some 0, 4⟩],
    images := some [⟨some 0, some "image/png", none⟩],
    shaders := none, extensions := none,
    accessors := some [⟨some 0, none⟩],
    meshes := none }

/-- The classification output for gltfC9. -/
def stC9val : DecompState :=
  ⟨{ gltfC9 with images := some [⟨none, some "image/png", some "t_img0undefined"⟩] },
   [], [], [("t_img0undefined", [1, 2, 3, 4])]⟩

/-- Witness for C9: the conversion of gltfC9 fails with the index-mapping
error. -/
theorem c9_witness :
    doConversionCore envC9 gltfC9 [] "." "t" = .error .indexMapping := by
  have hclass : classifyAll envC9 "." "t" [] gltfC9 = .ok stC9val := rfl
  have hbad : hasUnmappedReference stC9val.bufferViewList stC9val.gltf := by
    left
    exact ⟨[⟨some 0, none⟩], rfl, ⟨some 0, none⟩, List.mem_cons_self _ _, Or.inl ⟨0, rfl, List.not_mem_nil 0⟩⟩
  exact c9_unmapped_reference_fails envC9 "." "t" [] gltfC9 stC9val hclass hbad

theorem alignedLength_le (n : Nat) : n ≤ alignedLength n := by
  simp only [alignedLength]
  split
  · omega
  · split
    · omega
    · omega

theorem padJsonBuffer_length (json : List Nat) :
    (padJsonBuffer json).length = alignedLength json.length := by
  simp only [padJsonBuffer]
  split
  · next h => exact h.symm
  · next h =>
    have := alignedLength_le json.length
    simp only [List.length_append, List.length_replicate]
    omega

/-- Whether a JS byteOffset is an actual number that is 4-byte aligned. -/
def jsNumAligned : Option JsNum → Bool
  | some (.num o) => o % 4 == 0
  | _ => false

/-- Whether a decomposition-side byteOffset is present and 4-byte aligned. -/
def optAligned : Option Nat → Bool
  | some o => o % 4 == 0
  | none => false

/-- Invariant of the ConvertToGLB resource loops: the running offset stays
aligned and every bufferView appended after the original orig entries sits at
an aligned numeric offset. -/
def GlbInv (orig : Nat) (st : GlbState) : Prop :=
  st.bufferOffset % 4 = 0
    ∧ orig ≤ st.gltf.bufferViews.length
    ∧ ∀ v ∈ st.gltf.bufferViews.drop orig, jsNumAligned v.byteOffset = true

theorem convertToBufferView_inv {orig : Nat} {st : GlbState} (d : IUriData)
    (h : GlbInv orig st) : GlbInv orig (convertToBufferView st d).1 := by
  obtain ⟨h1, h2, h3⟩ := h
  refine ⟨?_, ?_, ?_⟩
  · have := alignedLength_mod_four d.buffer.length
    simp only [convertToBufferView]
    omega
  · simp only [convertToBufferView, List.length_append, List.length_cons, List.length_nil]
    omega
  · intro v hv
    simp only [convertToBufferView] at hv
    rw [List.drop_append_of_le_length h2] at hv
    rcases List.mem_append.mp hv with hv2 | hv2
    · exact h3 v hv2
    · have hv3 : v = ⟨0, some (.num st.bufferOffset), d.buffer.length⟩ := by
        simpa using hv2
      subst hv3
      simp [jsNumAligned, h1]

theorem buffersPass_offset_aligned :
    ∀ (env : Env) (src : String) (bufs : List BufferDesc) (idx off : Nat)
      (out : BuffersPassOut),
      buffersPass env src bufs idx off = .ok out → off % 4 = 0 →
      out.bufferOffset % 4 = 0 := by
  intro env src bufs
  induction bufs with
  | nil =>
    intro idx off out h hoff
    cases h
    exact hoff
  | cons b rest ih =>
    intro idx off out h hoff
    cases hd : dataFromUri env b.uri src with
    | error e => simp [buffersPass, hd] at h
    | ok v =>
      cases v with
      | none =>
        cases hrec : buffersPass env src rest (idx + 1) off with
        | error e => simp [buffersPass, hd, hrec] at h
        | ok out2 =>
          simp [buffersPass, hd, hrec] at h
          rw [← h]
          exact ih (idx + 1) off out2 hrec hoff
      | some data =>
        cases hrec : buffersPass env src rest (idx + 1) (off + alignedLength data.buffer.length) with
        | error e => simp [buffersPass, hd, hrec] at h
        | ok out2 =>
          simp [buffersPass, hd, hrec] at h
          rw [← h]
          have := alignedLength_mod_four data.buffer.length
          exact ih (idx + 1) (off + alignedLength data.buffer.length) out2 hrec (by omega)

theorem imagesPass_inv :
    ∀ (env : Env) (src : String) (l : List ImageEntry) (st : GlbState)
      (out : List ImageEntry × GlbState) (orig : Nat),
      imagesPass env src l st = .ok out → GlbInv orig st → GlbInv orig out.2 := by
  intro env src l
  induction l with
  | nil =>
    intro st out orig h hinv
    cases h
    exact hinv
  | cons im0 rest ih =>
    intro st out orig h hinv
    cases hd : dataFromUri env im0.uri src with
    | error e => simp [imagesPass, hd] at h
    | ok v =>
      cases v with
      | none =>
        cases hrec : imagesPass env src rest st with
        | error e => simp [imagesPass, hd, hrec] at h
        | ok out2 =>
          simp [imagesPass, hd, hrec] at h
          rw [← h]
          exact ih st out2 orig hrec hinv
      | some data =>
        cases hrec : imagesPass env src rest (convertToBufferView st data).1 with
        | error e => simp [imagesPass, hd, hrec] at h
        | ok out2 =>
          simp [imagesPass, hd, hrec] at h
          rw [← h]
          exact ih _ out2 orig hrec (convertToBufferView_inv data hinv)

theorem shadersPass_inv :
    ∀ (env : Env) (src : String) (l : List ShaderEntry) (st : GlbState)
      (out : List ShaderEntry × GlbState) (orig : Nat),
      shadersPass env src l st = .ok out → GlbInv orig st → GlbInv orig out.2 := by
  intro env src l
  induction l with
  | nil =>
    intro st out orig h hinv
    cases h
    exact hinv
  | cons sh0 rest ih =>
    intro st out orig h hinv
    cases hd : dataFromUri env sh0.uri src with
    | error e => simp [shadersPass, hd] at h
    | ok v =>
      cases v with
      | none =>
        cases hrec : shadersPass env src rest st with
        | error e => simp [shadersPass, hd, hrec] at h
        | ok out2 =>
          simp [shadersPass, hd, hrec] at h
          rw [← h]
          exact ih st out2 orig hrec hinv
      | some data =>
        cases hrec : shadersPass env src rest (convertToBufferView st data).1 with
        | error e => simp [shadersPass, hd, hrec] at h
        | ok out2 =>
          simp [shadersPass, hd, hrec] at h
          rw [← h]
          exact ih _ out2 orig hrec (convertToBufferView_inv data hinv)

theorem extEntriesPass_inv :
    ∀ (env : Env) (src : String) (l : List ExtEntry) (st : GlbState)
      (out : List ExtEntry × GlbState) (orig : Nat),
      extEntriesPass env src l st = .ok out → GlbInv orig st → GlbInv orig out.2 := by
  intro env src l
  induction l with
  | nil =>
    intro st out orig h hinv
    cases h
    exact hinv
  | cons b0 rest ih =>
    intro st out orig h hinv
    cases hd : dataFromUri env b0.uri src with
    | error e => simp [extEntriesPass, hd] at h
    | ok v =>
      cases v with
      | none =>
        cases hrec : extEntriesPass env src rest st with
        | error e => simp [extEntriesPass, hd, hrec] at h
        | ok out2 =>
          simp [extEntriesPass, hd, hrec] at h
          rw [← h]
          exact ih st out2 orig hrec hinv
      | some data =>
        cases hrec : extEntriesPass env src rest (convertToBufferView st data).1 with
        | error e => simp [extEntriesPass, hd, hrec] at h
        | ok out2 =>
          simp [extEntriesPass, hd, hrec] at h
          rw [← h]
          exact ih _ out2 orig hrec (convertToBufferView_inv data hinv)

theorem extPropsPass_inv :
    ∀ (env : Env) (src : String) (l : List ExtProp) (st : GlbState)
      (out : List ExtProp × GlbState) (orig : Nat),
      extPropsPass env src l st = .ok out → GlbInv orig st → GlbInv orig out.2 := by
  intro env src l
  induction l with
  | nil =>
    intro st out orig h hinv
    cases h
    exact hinv
  | cons p0 rest ih =>
    intro st out orig h hinv
    cases hents : p0.entries with
    | none =>
      cases hrec : extPropsPass env src rest st with
      | error e => simp [extPropsPass, hents, hrec] at h
      | ok out2 =>
        simp [extPropsPass, hents, hrec] at h
        rw [← h]
        exact ih st out2 orig hrec hinv
    | some entries =>
      cases hent : extEntriesPass env src entries st with
      | error e => simp [extPropsPass, hents, hent] at h
      | ok eout =>
        cases hrec : extPropsPass env src rest eout.2 with
        | error e => simp [extPropsPass, hents, hent, hrec] at h
        | ok out2 =>
          simp [extPropsPass, hents, hent, hrec] at h
          rw [← h]
          exact ih eout.2 out2 orig hrec
            (extEntriesPass_inv env src entries st eout orig hent hinv)

theorem extObjsPass_inv :
    ∀ (env : Env) (src : String) (l : List ExtensionObj) (st : GlbState)
      (out : List ExtensionObj × GlbState) (orig : Nat),
      extObjsPass env src l st = .ok out → GlbInv orig st → GlbInv orig out.2 := by
  intro env src l
  induction l with
  | nil =>
    intro st out orig h hinv
    cases h
    exact hinv
  | cons e0 rest ih =>
    intro st out orig h hinv
    cases hp : extPropsPass env src e0.props st with
    | error e => simp [extObjsPass, hp] at h
    | ok pout =>
      cases hrec : extObjsPass env src rest pout.2 with
      | error e => simp [extObjsPass, hp, hrec] at h
      | ok out2 =>
        simp [extObjsPass, hp, hrec] at h
        rw [← h]
        exact ih pout.2 out2 orig hrec
          (extPropsPass_inv env src e0.props st pout orig hp hinv)

theorem imagesStepFn_inv {env : Env} {src : String} {st st2 : GlbState} {orig : Nat}
    (h : imagesStepFn env src st = .ok st2) (hinv : GlbInv orig st) : GlbInv orig st2 := by
  simp only [imagesStepFn] at h
  cases hl : st.gltf.images with
  | none =>
    simp only [hl] at h
    cases h
    exact hinv
  | some l =>
    simp only [hl] at h
    cases hp : imagesPass env src l st with
    | error e => simp only [hp] at h; cases h
    | ok out =>
      simp only [hp] at h
      cases h
      exact imagesPass_inv env src l st out orig hp hinv

theorem shadersStepFn_inv {env : Env} {src : String} {st st2 : GlbState} {orig : Nat}
    (h : shadersStepFn env src st = .ok st2) (hinv : GlbInv orig st) : GlbInv orig st2 := by
  simp only [shadersStepFn] at h
  cases hl : st.gltf.shaders with
  | none =>
    simp only [hl] at h
    cases h
    exact hinv
  | some l =>
    simp only [hl] at h
    cases hp : shadersPass env src l st with
    | error e => simp only [hp] at h; cases h
    | ok out =>
      simp only [hp] at h
      cases h
      exact shadersPass_inv env src l st out orig hp hinv

theorem extStepFn_inv {env : Env} {src : String} {st st2 : GlbState} {orig : Nat}
    (h : extStepFn env src st = .ok st2) (hinv : GlbInv orig st) : GlbInv orig st2 := by
  simp only [extStepFn] at h
  cases hl : st.gltf.extensions with
  | none =>
    simp only [hl] at h
    cases h
    exact hinv
  | some l =>
    simp only [hl] at h
    cases hp : extObjsPass env src l st with
    | error e => simp only [hp] at h; cases h
    | ok out =>
      simp only [hp] at h
      cases h
      exact extObjsPass_inv env src l st out orig hp hinv

theorem glbInitState_inv {env : Env} {src : String} {gltf0 : GlbGltf}
    {bp : BuffersPassOut} (hbp : buffersPass env src gltf0.buffers 0 0 = .ok bp) :
    GlbInv gltf0.bufferViews.length (glbInitState gltf0 bp) := by
  refine ⟨?_, ?_, ?_⟩
  · exact buffersPass_offset_aligned env src gltf0.buffers 0 0 bp hbp (by decide)
  · simp [glbInitState, mergeViews]
  · intro v hv
    have hlen : (mergeViews bp.bufferMap gltf0.bufferViews).length
        = gltf0.bufferViews.length := by
      simp [mergeViews]
    simp only [glbInitState] at hv
    rw [← hlen, List.drop_length] at hv
    cases hv

theorem ConvertToGLBCore_aligned :
    ∀ (env : Env) (gltf0 : GlbGltf) (src : String) (r : GlbResult),
      ConvertToGLBCore env gltf0 src = .ok r →
      (∀ v ∈ r.gltf.bufferViews.drop gltf0.bufferViews.length,
          jsNumAligned v.byteOffset = true)
        ∧ r.binBufferSize % 4 = 0 := by
  intro env gltf0 src r h
  simp only [ConvertToGLBCore] at h
  cases hbp : buffersPass env src gltf0.buffers 0 0 with
  | error e => simp only [hbp] at h; cases h
  | ok bp =>
    simp only [hbp] at h
    cases himg : imagesStepFn env src (glbInitState gltf0 bp) with
    | error e => simp only [himg] at h; cases h
    | ok st1 =>
      simp only [himg] at h
      cases hsh : shadersStepFn env src st1 with
      | error e => simp only [hsh] at h; cases h
      | ok st2 =>
        simp only [hsh] at h
        cases hext : extStepFn env src st2 with
        | error e => simp only [hext] at h; cases h
        | ok st3 =>
          simp only [hext] at h
          cases h
          have hinv : GlbInv gltf0.bufferViews.length st3 :=
            extStepFn_inv hext (shadersStepFn_inv hsh
              (imagesStepFn_inv himg (glbInitState_inv hbp)))
          exact ⟨hinv.2.2, hinv.1⟩

/-- Well-formedness of the input document for the decomposition alignment
claim: every bufferView's byte range lies inside its resolved buffer
(spec section 3, invariants 2 and 5). -/
def ViewsInRange (env : Env) (pathBase : String) (g0 : Gltf) : Prop :=
  ∀ (i : Nat) (view : BufferView) (bs : List Nat),
    g0.bufferViews.get? i = some view →
    getBuffer env g0 view.buffer pathBase = .ok (some bs) →
    view.byteOffset.getD 0 + view.byteLength ≤ bs.length

/-- getBuffer reads only gltf.buffers. -/
theorem getBuffer_congr (env : Env) (g1 g2 : Gltf) (idx : Nat) (basePath : String)
    (h : g1.buffers = g2.buffers) :
    getBuffer env g1 idx basePath = getBuffer env g2 idx basePath := by
  simp [getBuffer, h]

/-- Invariant of the classification loop: buffers and bufferViews of the
document are untouched and every collected data part has aligned length. -/
def DecompInv (g0 : Gltf) (st : DecompState) : Prop :=
  st.gltf.buffers = g0.buffers ∧ st.gltf.bufferViews = g0.bufferViews
    ∧ ∀ d ∈ st.bufferDataList, d.length % 4 = 0

theorem writeImageBuf_preserve {env : Env} {pb tb : String} {bin : List Nat}
    {st st2 : DecompState} {images : List ImageEntry} {i : Nat}
    (h : writeImageBuf env pb tb bin st images i = .ok st2) :
    st2.gltf.buffers = st.gltf.buffers ∧ st2.gltf.bufferViews = st.gltf.bufferViews
      ∧ st2.bufferDataList = st.bufferDataList := by
  simp only [writeImageBuf] at h
  cases hv : st.gltf.bufferViews.get? i with
  | none => simp only [hv] at h; cases h
  | some view =>
    simp only [hv] at h
    cases images with
    | nil => cases h
    | cons fr rest =>
      cases hgb : getBufferCallSite env st.gltf view.buffer pb bin with
      | error e => simp only [hgb] at h; cases h
      | ok v2 =>
        cases v2 with
        | none => simp only [hgb] at h; cases h
        | some buf =>
          simp only [hgb] at h
          cases h
          exact ⟨rfl, rfl, rfl⟩

theorem writeShaderBuf_preserve {env : Env} {pb tb : String} {bin : List Nat}
    {st st2 : DecompState} {shaders : List ShaderEntry} {i : Nat}
    (h : writeShaderBuf env pb tb bin st shaders i = .ok st2) :
    st2.gltf.buffers = st.gltf.buffers ∧ st2.gltf.bufferViews = st.gltf.bufferViews
      ∧ st2.bufferDataList = st.bufferDataList := by
  simp only [writeShaderBuf] at h
  cases hv : st.gltf.bufferViews.get? i with
  | none => simp only [hv] at h; cases h
  | some view =>
    simp only [hv] at h
    cases shaders with
    | nil => cases h
    | cons fr rest =>
      cases hgb : getBufferCallSite env st.gltf view.buffer pb bin with
      | error e => simp only [hgb] at h; cases h
      | ok v2 =>
        cases v2 with
        | none => simp only [hgb] at h; cases h
        | some buf =>
          simp only [hgb] at h
          cases h
          exact ⟨rfl, rfl, rfl⟩

theorem writeExtensionBuffer_preserve {env : Env} {pb tb : String} {bin : List Nat}
    {st st2 : DecompState} {buffers : List (ExtEntry × String)} {i : Nat}
    (h : writeExtensionBuffer env pb tb bin st buffers i = .ok st2) :
    st2.gltf.buffers = st.gltf.buffers ∧ st2.gltf.bufferViews = st.gltf.bufferViews
      ∧ st2.bufferDataList = st.bufferDataList := by
  simp only [writeExtensionBuffer] at h
  cases hv : st.gltf.bufferViews.get? i with
  | none => simp only [hv] at h; cases h
  | some view =>
    simp only [hv] at h
    cases buffers with
    | nil => cases h
    | cons fr rest =>
      cases hgb : getBufferCallSite env st.gltf view.buffer pb bin with
      | error e => simp only [hgb] at h; cases h
      | ok v2 =>
        cases v2 with
        | none => simp only [hgb] at h; cases h
        | some buf =>
          simp only [hgb] at h
          cases h
          exact ⟨rfl, rfl, rfl⟩

theorem addToBinaryBuf_inv {env : Env} {pb : String} {bin : List Nat} {g0 : Gltf}
    {st st2 : DecompState} {i : Nat}
    (h : addToBinaryBuf env pb bin st i = .ok st2)
    (hinv : DecompInv g0 st) (hrange : ViewsInRange env pb g0) : DecompInv g0 st2 := by
  obtain ⟨hbufs, hviews, hdata⟩ := hinv
  simp only [addToBinaryBuf] at h
  cases hv : st.gltf.bufferViews.get? i with
  | none => simp only [hv] at h; cases h
  | some view =>
    simp only [hv] at h
    cases hgb : getBufferCallSite env st.gltf view.buffer pb bin with
    | error e => simp only [hgb] at h; cases h
    | ok v2 =>
      cases v2 with
      | none => simp only [hgb] at h; cases h
      | some buf =>
        simp only [hgb] at h
        cases h
        refine ⟨hbufs, hviews, ?_⟩
        intro d hd
        rcases List.mem_append.mp hd with hd2 | hd2
        · exact hdata d hd2
        · have hd3 : d = (if view.byteLength = alignedLength view.byteLength then
              jsSlice buf (view.byteOffset.getD 0) view.byteLength
            else
              bufferAllocFill (alignedLength view.byteLength)
                (jsSlice buf (view.byteOffset.getD 0) view.byteLength)) := by
            simpa using hd2
          subst hd3
          split
          · next heq =>
            have hg0 : getBuffer env g0 view.buffer pb = .ok (some buf) := by
              rw [← getBuffer_congr env st.gltf g0 view.buffer pb hbufs]
              exact hgb
            have hrange2 : view.byteOffset.getD 0 + view.byteLength ≤ buf.length :=
              hrange i view buf (hviews ▸ hv) hg0
            rw [jsSlice_length]
            have halign := alignedLength_mod_four view.byteLength
            omega
          · rw [bufferAllocFill_length]
            exact alignedLength_mod_four _

theorem classifyStep_inv {env : Env} {pb tb : String} {bin : List Nat} {g0 : Gltf}
    {st st2 : DecompState} {i : Nat}
    (h : classifyStep env pb tb bin st i = .ok st2)
    (hinv : DecompInv g0 st) (hrange : ViewsInRange env pb g0) : DecompInv g0 st2 := by
  obtain ⟨hbufs, hviews, hdata⟩ := hinv
  simp only [classifyStep] at h
  split at h
  · obtain ⟨p1, p2, p3⟩ := writeImageBuf_preserve h
    exact ⟨p1.trans hbufs, p2.trans hviews, p3 ▸ hdata⟩
  · split at h
    · obtain ⟨p1, p2, p3⟩ := writeShaderBuf_preserve h
      exact ⟨p1.trans hbufs, p2.trans hviews, p3 ▸ hdata⟩
    · split at h
      · obtain ⟨p1, p2, p3⟩ := writeExtensionBuffer_preserve h
        exact ⟨p1.trans hbufs, p2.trans hviews, p3 ▸ hdata⟩
      · exact addToBinaryBuf_inv h ⟨hbufs, hviews, hdata⟩ hrange

theorem classifyLoop_inv :
    ∀ (env : Env) (pb tb : String) (bin : List Nat) (idxs : List Nat) (g0 : Gltf)
      (st st2 : DecompState),
      classifyLoop env pb tb bin idxs st = .ok st2 →
      DecompInv g0 st → ViewsInRange env pb g0 → DecompInv g0 st2 := by
  intro env pb tb bin idxs
  induction idxs with
  | nil =>
    intro g0 st st2 h hinv hrange
    cases h
    exact hinv
  | cons i rest ih =>
    intro g0 st st2 h hinv hrange
    simp only [classifyLoop] at h
    cases hstep : classifyStep env pb tb bin st i with
    | error e => simp only [hstep] at h; cases h
    | ok stm =>
      simp only [hstep] at h
      exact ih g0 stm st2 h (classifyStep_inv hstep hinv hrange) hrange

theorem classifyAll_inv {env : Env} {pb tb : String} {bin : List Nat}
    {gltf0 : Gltf} {st : DecompState}
    (h : classifyAll env pb tb bin gltf0 = .ok st)
    (hrange : ViewsInRange env pb gltf0) : DecompInv gltf0 st := by
  exact classifyLoop_inv env pb tb bin (List.range gltf0.bufferViews.length) gltf0
    ⟨gltf0, [], [], []⟩ st h ⟨rfl, rfl, by intro d hd; cases hd⟩ hrange

theorem buildNewBufferViews_aligned :
    ∀ (oldViews : List BufferView) (vis : List Nat) (ds : List (List Nat)) (cur : Nat),
      cur % 4 = 0 → (∀ d ∈ ds, d.length % 4 = 0) →
      ∀ v ∈ buildNewBufferViews oldViews vis ds cur, optAligned v.byteOffset = true := by
  intro oldViews vis
  induction vis with
  | nil =>
    intro ds cur h1 h2 v hv
    cases ds <;> simp [buildNewBufferViews] at hv
  | cons vi vis0 ih =>
    intro ds cur h1 h2 v hv
    cases ds with
    | nil => simp [buildNewBufferViews] at hv
    | cons d ds0 =>
      simp only [buildNewBufferViews] at hv
      rcases List.mem_cons.mp hv with rfl | hv2
      · simp [optAligned, h1]
      · have hd := h2 d (by simp)
        exact ih ds0 (cur + d.length) (by omega)
          (fun d2 hd2 => h2 d2 (by simp [hd2])) v hv2

/-- Claim C7: every bufferView newly generated by either direction sits at a
4-byte-aligned byteOffset (the decomposer's rewritten generic entries, for
in-range inputs; the composer's appended resource entries), and both chunk
lengths the composer stores (the padded JSON chunk length and the binary
chunk length binBufferSize) are multiples of 4. -/
theorem c7_alignment :
    (∀ (env : Env) (pathBase targetBasename : String) (binBuffer : List Nat)
        (gltf0 : Gltf) (st : DecompState),
        classifyAll env pathBase targetBasename binBuffer gltf0 = .ok st →
        ViewsInRange env pathBase gltf0 →
        ∀ v ∈ (rewriteGenericViews st.gltf st.bufferViewList st.bufferDataList).bufferViews,
          optAligned v.byteOffset = true)
  ∧ (∀ (env : Env) (gltf0 : GlbGltf) (src : String) (r : GlbResult),
        ConvertToGLBCore env gltf0 src = .ok r →
        (∀ v ∈ r.gltf.bufferViews.drop gltf0.bufferViews.length,
            jsNumAligned v.byteOffset = true)
          ∧ r.binBufferSize % 4 = 0)
  ∧ (∀ json : List Nat, (padJsonBuffer json).length % 4 = 0) := by
  refine ⟨?_, ConvertToGLBCore_aligned, ?_⟩
  · intro env pb tb bin gltf0 st hclass hrange v hv
    have hinv := classifyAll_inv hclass hrange
    simp only [rewriteGenericViews] at hv
    exact buildNewBufferViews_aligned st.gltf.bufferViews st.bufferViewList
      st.bufferDataList 0 (by decide) hinv.2.2 v hv
  · intro json
    rw [padJsonBuffer_length]
    exact alignedLength_mod_four _

/-- The classification output for gltfC4. -/
def stC4val : DecompState := ⟨gltfC4, [0], [[1, 2, 3, 4, 5, 1, 2, 3]], []⟩

/-- A composition input with one image backed by an embedded png data uri. -/
def gltfC7 : GlbGltf :=
  { buffers := [], bufferViews := [],
    images := some [⟨none, none, some "data:image/png;base64,AAAA"⟩],
    shaders := none, extensions := none }

/-- The ConvertToGLB result for gltfC7. -/
def rC7val : GlbResult :=
  ⟨{ buffers := [⟨none, 4⟩],
     bufferViews := [⟨0, some (.num 0), 3⟩],
     images := some [⟨some 0, some "image/png", none⟩],
     shaders := none, extensions := none },
   [(0, 0)], [[0, 0, 0]], 4⟩

/-- Witness for C7: the rewritten generic view of the C4 input, the appended
image view of gltfC7, the binary chunk size 4, and a 3-byte JSON. -/
theorem c7_witness :
    optAligned ((⟨0, some 0, 8⟩ : BufferView).byteOffset) = true
      ∧ jsNumAligned ((⟨0, some (.num 0), 3⟩ : GlbBufferView).byteOffset) = true
      ∧ rC7val.binBufferSize % 4 = 0
      ∧ (padJsonBuffer [1, 2, 3]).length % 4 = 0 := by
  have hrange : ViewsInRange envC4 "." gltfC4 := by
    intro i view bs h1 h2
    cases i with
    | zero =>
      injection h1 with h1
      subst h1
      have h3 : (Except.ok (some [1, 2, 3, 4, 5]) : Except JsError (Option (List Nat)))
          = .ok (some bs) := h2
      injection h3 with h3
      injection h3 with h3
      subst h3
      decide
    | succ n => exact Option.noConfusion h1
  have hclass : classifyAll envC4 "." "t" [] gltfC4 = .ok stC4val := rfl
  have hdec := c7_alignment.1 envC4 "." "t" [] gltfC4 stC4val hclass hrange
    ⟨0, some 0, 8⟩ (by decide)
  have hcomp := c7_alignment.2.1 envNone gltfC7 "s" rC7val rfl
  have hview := hcomp.1 ⟨0, some (.num 0), 3⟩ (by decide)
  exact ⟨hdec, hview, hcomp.2, c7_alignment.2.2 [1, 2, 3]⟩
